import Mathlib

/-!
# Verification of the Malloy semantic-analysis core (`ast-main.ts`)

A shallow embedding, in Lean 4, of the parts of the Malloy language
compiler's middle end that the specification's claims are about:

* the type/value vocabulary carried through expression evaluation
  (`ExprValue`, expression kinds, eval spaces);
* the binary-operator dispatcher (`applyBinary` and the class functions
  `equality`, `compare`, `numeric`, `delta`, the division path, and the
  helpers `errorCascade`, `unsupportError`, `timeCompare`, `nullCompare`,
  `regexEqual`);
* `Filter.getFilterList` and the `having` setter;
* `Top.getBy`;
* the field spaces: `StaticSpace`'s entry map, `DynamicSpace`
  (`filteredFrom`, `setEntry`, `structDef`), `DefSpace.lookup`, and the
  result spaces (`queryFieldDefs`, `ProjectFieldSpace.canContain`,
  `getPipeSegment`);
* `FieldDeclaration.queryFieldDef` / `fieldDef`;
* the segment executors `ReduceExecutor` (limit/order handling,
  `refineFrom`, `finalize`) and `IndexExecutor`.

Pure functions of the source become Lean functions; the mutable spaces
become explicit state passing; code that throws returns `Except`; the
diagnostics a node would `log` are returned as explicit lists of
messages.  Leaf utilities that the covered source imports from modules
that are not part of the covered source (`model/malloy_types`,
`ast-utils`, `field-utils`, the expression leaf nodes) are modelled from
the specification and are marked as such in their doc comments.
-/

namespace MalloySpec

/-- A single-quote character, used to build diagnostic strings that quote
names the way the source's template literals do. -/
def sq : String := Char.toString (Char.ofNat 39)

/-! ## Type and value vocabulary -/

/-- Expression kinds.  Modelled from the spec (the definitions live in
`model/malloy_types`, which is not part of the covered source):
`scalar`, `aggregate`, `analytic`, `ungrouped_aggregate`. -/
inductive ExpressionType where
| scalar
| aggregate
| analytic
| ungroupedAggregate
deriving DecidableEq, Repr

/-- Position of an expression kind on the spec's max-lattice:
scalar < aggregate < analytic < ungrouped_aggregate. -/
def etRank : ExpressionType → Nat
| .scalar => 0
| .aggregate => 1
| .analytic => 2
| .ungroupedAggregate => 3

/-- Modelled from the spec: `maxExpressionType(a,b)` yields the
most-derived kind (mixing scalar with aggregate gives aggregate,
aggregate with analytic gives analytic, any with ungrouped_aggregate
gives ungrouped_aggregate). -/
def maxExpressionType (a b : ExpressionType) : ExpressionType :=
if etRank b > etRank a then b else a

/-- Modelled from the spec: fold of `maxExpressionType` over a list,
starting from `scalar`. -/
def maxOfExpressionTypes (l : List ExpressionType) : ExpressionType :=
l.foldl maxExpressionType .scalar

/-- Modelled from the spec: `expressionIsAggregate` holds of the
aggregate kinds (aggregate and ungrouped_aggregate). -/
def expressionIsAggregate : ExpressionType → Bool
| .aggregate => true
| .ungroupedAggregate => true
| _ => false

/-- Modelled from the spec: a calculation is any non-scalar kind
("any calculation-kind dominates scalar"). -/
def expressionIsCalculation (e : ExpressionType) : Bool :=
e != .scalar

/-- `expressionIsAggregate` lifted to an optional kind (a field def whose
`expressionType` is undefined is not an aggregate). -/
def expressionIsAggregateOpt : Option ExpressionType → Bool
| some e => expressionIsAggregate e
| none => false

/-- Eval spaces.  Modelled from the spec: constant < literal < input <
output. -/
inductive EvalSpace where
| constant
| literal
| input
| output
deriving DecidableEq, Repr

/-- Position of an eval space on the spec's lattice. -/
def esRank : EvalSpace → Nat
| .constant => 0
| .literal => 1
| .input => 2
| .output => 3

/-- Modelled from the spec: `mergeEvalSpaces` returns the max along the
eval-space lattice (most-derived wins). -/
def mergeEvalSpaces (a b : EvalSpace) : EvalSpace :=
if esRank b > esRank a then b else a

/-- The variadic form of `mergeEvalSpaces`, folded from the lattice
bottom `constant`. -/
def mergeEvalSpacesList (l : List EvalSpace) : EvalSpace :=
l.foldl mergeEvalSpaces .constant

/-- The data types an `ExprValue` can carry.  Listed from the spec's
vocabulary section: the storable atomic types plus `regular expression`,
`null` and the internal sentinels `duration`, `unknown`, `error`. -/
inductive DataType where
| string
| number
| boolean
| date
| timestamp
| regexT
| nullT
| unsupported
| duration
| unknown
| error
deriving DecidableEq, Repr

/-- Modelled from the spec: the time field types are `date` and
`timestamp`. -/
def isTimeFieldType : DataType → Bool
| .date => true
| .timestamp => true
| _ => false

/-- Modelled from the spec: the storable atomic field types.  The
internal sentinels (`duration`, `unknown`, `error`) and the value-only
types (`regular expression`, `null`) are not atomic — witnessed in the
covered source by `FieldDeclaration.queryFieldDef`, whose non-atomic
branch handles `unknown` explicitly. -/
def isAtomicFieldType : DataType → Bool
| .string => true
| .number => true
| .boolean => true
| .date => true
| .timestamp => true
| .unsupported => true
| _ => false

/-- Render a data type name the way the source's template literals
interpolate it into diagnostics. -/
def dtName : DataType → String
| .string => "string"
| .number => "number"
| .boolean => "boolean"
| .date => "date"
| .timestamp => "timestamp"
| .regexT => "regular expression"
| .nullT => "null"
| .unsupported => "unsupported"
| .duration => "duration"
| .unknown => "unknown"
| .error => "error"

/-- SQL plan fragments.  The source builds nested fragment arrays; this
embedding only needs to distinguish the constructors the dispatcher can
produce, so fragments are a small tree. -/
inductive Frag where
| str (s : String)
| compose (l : Frag) (op : String) (r : Frag)
| notWrap (e : Frag)
| regexpMatch (e : Frag) (regexp : Frag)
| isNullCheck (e : Frag) (neg : Bool)
| divF (num : Frag) (den : Frag)
| timeOffsetF (t : DataType) (e : Frag) (op : String) (n : Frag) (tf : String)
| errorF (s : String)
deriving DecidableEq, Repr

/-- The `ExprValue` tuple carried through expression evaluation.  The
optional `timeframe` is the granularity sidecar; `morphicTimestamp` is
the `timestamp` entry of the morphic map (the only entry the covered
source consults, via `willMorphTo(·, 'timestamp')`); `rawType` supports
the unsupported-type raw-match check in `equality`. -/
structure ExprValue where
  dataType : DataType
  expressionType : ExpressionType
  evalSpace : EvalSpace
  value : Frag
  timeframe : Option String := none
  morphicTimestamp : Option Frag := none
  rawType : Option String := none
deriving DecidableEq, Repr

/-- Modelled from the spec: the constructor for error-typed
`ExprValue`s (`errorFor` of `ast-utils`, not part of the covered
source). -/
def errorFor (msg : String) : ExprValue :=
{ dataType := .error
  expressionType := .scalar
  evalSpace := .constant
  value := .errorF msg }

/-- Modelled from the spec: a granular result is a time value with a
`timeframe` attached. -/
def isGranularResult (v : ExprValue) : Bool :=
isTimeFieldType v.dataType && v.timeframe.isSome

/-- Modelled from the spec: `FT.typeEq` compares the data types of two
values (used by `ExprDuration.apply` to require a number). -/
def ftTypeEq (a b : ExprValue) : Bool :=
a.dataType == b.dataType

/-- Modelled from the spec: `FT.inspect` renders a value's type for a
diagnostic. -/
def ftInspect (v : ExprValue) : String :=
dtName v.dataType

/-! ## Filter (`Filter`, `FilterElement` — ast-main.ts lines 455–518) -/

/-- The `model.FilterExpression` a `FilterElement` elaborates to:
source code text, expression kind and compiled value. -/
structure FilterExpressionM where
  code : String
  expressionType : ExpressionType
  value : Frag
deriving DecidableEq, Repr

/-- A `FilterElement`: its source text together with the `ExprValue` its
expression elaborates to in the enclosing field space (the embedding
takes the elaborated value as given). -/
structure FilterElementM where
  exprSrc : String
  exprVal : ExprValue
deriving DecidableEq, Repr

/-- `FilterElement.filterExpression`: a non-boolean filter expression is
diagnosed and replaced by the scalar sentinel; otherwise the compiled
expression is returned with its expression kind. -/
def FilterElementM.filterExpression (el : FilterElementM) :
    FilterExpressionM × List String :=
if el.exprVal.dataType != .boolean then
  (⟨el.exprSrc, .scalar, .str "_FILTER_MUST_RETURN_BOOLEAN_"⟩,
   ["Filter expression must have boolean value"])
else
  (⟨el.exprSrc, el.exprVal.expressionType, el.exprVal.value⟩, [])

/-- The `Filter` list element.  `havingClause` is the private field of
the source class; it is declared but — exactly as in the source — no
code path ever assigns it. -/
structure FilterM where
  elementType : String := "filterElements"
  havingClause : Option Bool := none
  list : List FilterElementM
deriving DecidableEq, Repr

/-- The `set having(isHaving)` accessor of `Filter`: it updates
`elementType` only; `havingClause` is left untouched (this mirrors the
source exactly — the setter never writes `havingClause`). -/
def FilterM.setHaving (f : FilterM) (isHaving : Bool) : FilterM :=
{ f with elementType := if isHaving then "having" else "where" }

/-- One step of `Filter.getFilterList`: elaborate the element, then run
the WHERE/HAVING legality check — which is only reached when
`havingClause` is defined. -/
def filterStep (hc : Option Bool) (el : FilterElementM) :
    Option FilterExpressionM × List String :=
let (fExpr, lg) := el.filterExpression
match hc with
| some h =>
  if h then
    if expressionIsCalculation fExpr.expressionType then
      (none, lg ++ ["Aggregate or Analytical expression expected in HAVING filter"])
    else (some fExpr, lg)
  else
    if fExpr.expressionType != .scalar then
      (none, lg ++ ["Aggregate or Analytical expressions not allowed in WHERE"])
    else (some fExpr, lg)
| none => (some fExpr, lg)

/-- Iteration of `filterStep` over the element list. -/
def getFilterListAux (hc : Option Bool) :
    List FilterElementM → List FilterExpressionM × List String
| [] => ([], [])
| el :: rest =>
  let (kept, lg) := filterStep hc el
  let (restF, restL) := getFilterListAux hc rest
  (match kept with
   | some fe => fe :: restF
   | none => restF, lg ++ restL)

/-- `Filter.getFilterList`. -/
def FilterM.getFilterList (f : FilterM) : List FilterExpressionM × List String :=
getFilterListAux f.havingClause f.list

/-! ## Top (`Top.getBy` — ast-main.ts lines 1364–1392) -/

/-- The `by` part of a `top:` property: either a field name or an
expression (the embedding takes the expression's elaborated
`ExprValue`). -/
inductive TopInitM where
| byName (n : String)
| byExpr (v : ExprValue)
deriving DecidableEq, Repr

/-- The `model.By` result of `Top.getBy`. -/
inductive ByM where
| byNameB (name : String)
| byExpressionB (e : Frag)
deriving DecidableEq, Repr

/-- The `Top` property: a limit plus an optional `by`. -/
structure TopM where
  limit : Nat
  topBy : Option TopInitM
deriving DecidableEq, Repr

/-- `Top.getBy`: a name becomes `{by:'name'}` with no check; an
expression becomes `{by:'expression'}` and the source logs
"top by expression must be an aggregate" when `expressionIsAggregate`
holds of the expression's kind (this mirrors the source condition
verbatim). -/
def TopM.getBy (t : TopM) : Option ByM × List String :=
match t.topBy with
| none => (none, [])
| some (.byName n) => (some (.byNameB n), [])
| some (.byExpr v) =>
  (some (.byExpressionB v.value),
   if expressionIsAggregate v.expressionType then
     ["top by expression must be an aggregate"]
   else [])

end MalloySpec

namespace MalloySpec

/-! ## Expression evaluation and the binary-operator dispatcher
(the second covered source file: `ExpressionDef`, `ExprDuration`,
`applyBinary` and its class functions) -/

/-- A lookup function standing for the field space passed to
`getExpression`: for a one-segment reference it yields either the found
value or a lookup error message, together with a flag telling whether
this lookup tripped a `DefSpace`'s `foundCircle` (always `false` for
spaces that are not `DefSpace`s). -/
def Lk : Type := String → Except String ExprValue × Bool

/-- Result of evaluating an expression node: the value (or the message
of a thrown exception), the diagnostics logged during evaluation, and
whether any lookup set `foundCircle`. -/
structure EvalOut where
  res : Except String ExprValue
  log : List String
  circ : Bool
deriving Repr

/-- Result of evaluating the two operands of a binary application, left
first (a thrown exception in the left operand prevents evaluation of the
right one, as in the source). -/
structure PairOut where
  res : Except String (ExprValue × ExprValue)
  log : List String
  circ : Bool
deriving Repr

/-- Fuel exhaustion marker (the JS original can recurse unboundedly on
pathological inputs; fuel models the call stack). -/
def fuelExhausted : EvalOut := ⟨.error "__STACK_OVERFLOW__", [], false⟩

/-- Fuel exhaustion marker for pair evaluation. -/
def pairExhausted : PairOut := ⟨.error "__STACK_OVERFLOW__", [], false⟩

/-- Run a pure dispatcher body on an evaluated operand pair, propagating
thrown exceptions and prepending the operand-evaluation diagnostics. -/
def liftBody (p : PairOut)
    (body : ExprValue → ExprValue → Except String ExprValue × List String) : EvalOut :=
match p.res with
| .error m => ⟨.error m, p.log, p.circ⟩
| .ok (lv, rv) =>
  let (r, lg) := body lv rv
  ⟨r, p.log ++ lg, p.circ⟩

/-- `isEquality` (module `./equality`, not under `src/`; modelled from
the spec's operator table): `=`, `!=`, `~`, `!~`. -/
def isEquality (op : String) : Bool :=
op == "=" || op == "!=" || op == "~" || op == "!~"

/-- `isComparison` (module `./comparison`, not under `src/`; modelled
from the spec's operator table): `<`, `<=`, `>`, `>=`. -/
def isComparison (op : String) : Bool :=
op == "<" || op == "<=" || op == ">" || op == ">="

/-- Modelled from the spec: `nullsafeNot` wraps the negative forms
(`!=`, `!~`) in a NOT. -/
def nullsafeNot (v : Frag) (op : String) : Frag :=
if op == "!=" || op == "!~" then .notWrap v else v

/-- Modelled from the spec: `isDateUnit` holds of units no finer than a
day. -/
def isDateUnit (tf : String) : Bool :=
["day", "week", "month", "quarter", "year"].contains tf

/-- Modelled from the spec (`time-utils` is not under `src/`):
`timeResult` attaches the optional granularity to a time value. -/
def timeResult (v : ExprValue) (granularity : Option String) : ExprValue :=
{ v with timeframe := granularity }

/-- `willMorphTo`: the value itself when the type already matches, else
the morphic rendering.  The covered source only ever asks for the
`timestamp` rendering, which is the one entry the embedding keeps. -/
def willMorphTo (ev : ExprValue) (t : DataType) : Option Frag :=
if ev.dataType == t then some ev.value
else if t == .timestamp then ev.morphicTimestamp
else none

/-- `timeCompare`: compare two time values (morphing to timestamp when
the sides disagree); comparing time to non-time non-null logs and yields
`false`; otherwise no opinion. -/
def timeCompare (lhs : ExprValue) (op : String) (rhs : ExprValue) :
    Option Frag × List String :=
let leftIsTime := isTimeFieldType lhs.dataType
let rightIsTime := isTimeFieldType rhs.dataType
let bothTimes : Option Frag :=
  if leftIsTime && rightIsTime then
    if lhs.dataType != rhs.dataType then
      match willMorphTo lhs .timestamp, willMorphTo rhs .timestamp with
      | some lval, some rval => some (.compose lval op rval)
      | _, _ => none
    else some (.compose lhs.value op rhs.value)
  else none
match bothTimes with
| some f => (some f, [])
| none =>
  if (leftIsTime || rightIsTime) && lhs.dataType != .nullT && rhs.dataType != .nullT then
    (some (.str "false"),
     ["Cannot compare a " ++ dtName lhs.dataType ++ " to a " ++ dtName rhs.dataType])
  else (none, [])

/-- `regexEqual`: a string matched against a regular expression (either
side) becomes a dialect regexp-match fragment. -/
def regexEqual (l r : ExprValue) : Option Frag :=
if l.dataType == .string then
  if r.dataType == .regexT then some (.regexpMatch l.value r.value) else none
else if r.dataType == .string then
  if l.dataType == .regexT then some (.regexpMatch r.value l.value) else none
else none

/-- `nullCompare`: equality against `null` becomes an `IS [NOT] NULL`
check (`null = null` is `true`, `null != null` is `false`). -/
def nullCompare (l : ExprValue) (op : String) (r : ExprValue) : Option Frag :=
let notOp := op == "!=" || op == "!~"
if l.dataType == .nullT || r.dataType == .nullT then
  if l.dataType != .nullT then some (.isNullCheck l.value notOp)
  else if r.dataType != .nullT then some (.isNullCheck r.value notOp)
  else some (.str (if notOp then "false" else "true"))
else none

/-- `errorCascade(dataType, ...es)`: when some operand is error-typed,
produce the cascade value — carrying the *given* data type, the max of
the operands' expression kinds, and the sentinel plan fragment — and
otherwise nothing. -/
def errorCascade (dataType : DataType) (es : List ExprValue) : Option ExprValue :=
if es.any (fun e => e.dataType == .error) then
  some { dataType := dataType
         expressionType := maxOfExpressionTypes (es.map (·.expressionType))
         value := .str (sq ++ "cascading error" ++ sq)
         evalSpace := mergeEvalSpacesList (es.map (·.evalSpace)) }
else none

/-- `unsupportError`: an operand of unsupported type is diagnosed; the
poisoned result keeps the other side's data type when the left side was
the unsupported one. -/
def unsupportError (lhs rhs : ExprValue) : Option ExprValue × List String :=
let ret : ExprValue :=
  { dataType := lhs.dataType
    expressionType := maxExpressionType lhs.expressionType rhs.expressionType
    value := .str (sq ++ "unsupported operation" ++ sq)
    evalSpace := mergeEvalSpaces lhs.evalSpace rhs.evalSpace }
if lhs.dataType == .unsupported then
  (some { ret with dataType := rhs.dataType }, ["Unsupported type not allowed in expression"])
else if rhs.dataType == .unsupported then
  (some ret, ["Unsupported type not allowed in expression"])
else (none, [])

/-- Build the boolean result the equality/comparison paths return. -/
def mkBool (lhs rhs : ExprValue) (v : Frag) : ExprValue :=
{ dataType := .boolean
  expressionType := maxExpressionType lhs.expressionType rhs.expressionType
  evalSpace := mergeEvalSpaces lhs.evalSpace rhs.evalSpace
  value := v }

/-- The body of `equality` after both operands are evaluated.  A
`TypeMismatch` throw becomes an `error` result (the diagnostics emitted
before the throw are kept, as the source's side effects would be). -/
def equalityBody (op : String) (lhs rhs : ExprValue) :
    Except String ExprValue × List String :=
match errorCascade .boolean [lhs, rhs] with
| some err => (.ok err, [])
| none =>
  let checkUnsupport := lhs.dataType == .unsupported || rhs.dataType == .unsupported
  let unsupRes : Option (ExprValue × List String) :=
    if checkUnsupport then
      let oneNull := lhs.dataType == .nullT || rhs.dataType == .nullT
      let rawMatch := lhs.rawType.isSome && lhs.rawType == rhs.rawType
      if !(oneNull || rawMatch) then
        match unsupportError lhs rhs with
        | (some noGo, lg) => some ({ noGo with dataType := .boolean }, lg)
        | (none, _) => none
      else none
    else none
  match unsupRes with
  | some (v, lg) => (.ok v, lg)
  | none =>
    let (tc, tcLog) := timeCompare lhs op rhs
    let value0 := tc.getD (.compose lhs.value op rhs.value)
    if lhs.dataType != .error && rhs.dataType != .error then
      if op == "~" || op == "!~" then
        if lhs.dataType == .string && rhs.dataType == .string then
          (.ok (mkBool lhs rhs (nullsafeNot (.compose lhs.value "LIKE" rhs.value) op)), tcLog)
        else
          match regexEqual lhs rhs with
          | none =>
            (.error ("Incompatible types for match(" ++ sq ++ "~" ++ sq ++ ") operator"), tcLog)
          | some rc => (.ok (mkBool lhs rhs (nullsafeNot rc op)), tcLog)
      else if op == "=" || op == "!=" then
        match nullCompare lhs op rhs with
        | some nc => (.ok (mkBool lhs rhs nc), tcLog)
        | none =>
          let ve := (regexEqual lhs rhs).getD (.compose lhs.value "=" rhs.value)
          (.ok (mkBool lhs rhs (nullsafeNot ve op)), tcLog)
      else (.ok (mkBool lhs rhs value0), tcLog)
    else (.ok (mkBool lhs rhs value0), tcLog)

/-- The body of `compare` after both operands are evaluated. -/
def compareBody (op : String) (lhs rhs : ExprValue) :
    Except String ExprValue × List String :=
match errorCascade .boolean [lhs, rhs] with
| some err => (.ok err, [])
| none =>
  match unsupportError lhs rhs with
  | (some noCompare, lg) => (.ok { noCompare with dataType := .boolean }, lg)
  | (none, _) =>
    let (tc, tcLog) := timeCompare lhs op rhs
    (.ok (mkBool lhs rhs (tc.getD (.compose lhs.value op rhs.value))), tcLog)

/-- The body of `numeric` after both operands are evaluated
(`allAre('number', lhs, rhs)` is inlined as the two membership
checks). -/
def numericBody (op : String) (lhs rhs : ExprValue) :
    Except String ExprValue × List String :=
match errorCascade .number [lhs, rhs] with
| some err => (.ok err, [])
| none =>
  match unsupportError lhs rhs with
  | (some noGo, lg) => (.ok noGo, lg)
  | (none, _) =>
    if lhs.dataType == .number && rhs.dataType == .number then
      (.ok { dataType := .number
             expressionType := maxExpressionType lhs.expressionType rhs.expressionType
             value := .compose lhs.value op rhs.value
             evalSpace := mergeEvalSpaces lhs.evalSpace rhs.evalSpace }, [])
    else
      (.ok (errorFor "numbers required"),
       ["Non numeric(" ++ sq ++ dtName lhs.dataType ++ "," ++ dtName rhs.dataType ++ sq
         ++ ") value with " ++ sq ++ op ++ sq])

/-- The body of the `/` path of `applyBinary` after both operands are
evaluated: the unsupported check runs first (adding its own diagnostic),
then the error cascade, then the dialect `div` fragment. -/
def divisionBody (lhs rhs : ExprValue) : Except String ExprValue × List String :=
match unsupportError lhs rhs with
| (some noGo, lg) => (.ok noGo, lg ++ ["Cannot operate with unsupported type"])
| (none, _) =>
  match errorCascade .number [lhs, rhs] with
  | some err => (.ok err, [])
  | none =>
    if lhs.dataType != .number then
      (.ok (errorFor "divide type mismatch"), ["Numerator for division must be a number"])
    else if rhs.dataType != .number then
      (.ok (errorFor "divide type mismatch"), ["Denominator for division must be a number"])
    else
      (.ok { dataType := .number
             expressionType := maxExpressionType lhs.expressionType rhs.expressionType
             evalSpace := mergeEvalSpaces lhs.evalSpace rhs.evalSpace
             value := .divF lhs.value rhs.value }, [])

/-- The `ExprValue` `ExprDuration.getExpression` returns: the duration
sentinel. -/
def durationSentinel : ExprValue :=
{ dataType := .duration
  expressionType := .scalar
  evalSpace := .constant
  value := .str "__ERROR_DURATION_IS_NOT_A_VALUE__" }

/-- Expression nodes, as far as the dispatcher needs to distinguish
them: an already-elaborated operand (a literal or any node whose value
is known), a one-segment identifier reference, an `ExprDuration` node
(the only node in the covered source whose `getExpression` yields a
duration and whose `apply` is overridden), and a binary application. -/
inductive ENode where
| leafV (v : ExprValue)
| idRef (name : String)
| durationNode (n : ENode) (tf : String)
| binop (op : String) (l : ENode) (r : ENode)
deriving DecidableEq, Repr

mutual

/-- `getExpression` over an expression node.  Identifier references are
modelled from the spec (the reference leaf lives in `ast-expr`, not
under `src/`): a failed lookup logs the lookup error once at the
reference site and yields an error-typed value. -/
def evalE : Nat → Lk → ENode → EvalOut
| 0, _, _ => fuelExhausted
| _ + 1, _, .leafV v => ⟨.ok v, [], false⟩
| _ + 1, lk, .idRef n =>
  match lk n with
  | (.error msg, c) => ⟨.ok (errorFor msg), [msg], c⟩
  | (.ok v, c) => ⟨.ok v, [], c⟩
| _ + 1, _, .durationNode _ _ => ⟨.ok durationSentinel, [], false⟩
| fuel + 1, lk, .binop op l r => applyNodeE fuel lk op l r

/-- `right.apply(fs, op, left)`: dynamic dispatch of the apply hook.
`ExprDuration` overrides it; every other node uses the default
implementation, which is `applyBinary`. -/
def applyNodeE : Nat → Lk → String → ENode → ENode → EvalOut
| 0, _, _, _, _ => fuelExhausted
| fuel + 1, lk, op, left, .durationNode nN tf => exprDurationApplyE fuel lk op left nN tf
| fuel + 1, lk, op, left, right => applyBinaryE fuel lk op left right

/-- Evaluate the two operands of a binary application, left first, with
exception propagation (the right operand is not evaluated when the left
one throws). -/
def evalPairE : Nat → Lk → ENode → ENode → PairOut
| 0, _, _, _ => pairExhausted
| fuel + 1, lk, left, right =>
  let lo := evalE fuel lk left
  match lo.res with
  | .error m => ⟨.error m, lo.log, lo.circ⟩
  | .ok lv =>
    let ro := evalE fuel lk right
    match ro.res with
    | .error m => ⟨.error m, lo.log ++ ro.log, lo.circ || ro.circ⟩
    | .ok rv => ⟨.ok (lv, rv), lo.log ++ ro.log, lo.circ || ro.circ⟩

/-- `applyBinary`: route on the operator class.  The final fall-through
(unknown operator) logs without evaluating the operands, exactly as the
source does. -/
def applyBinaryE : Nat → Lk → String → ENode → ENode → EvalOut
| 0, _, _, _, _ => fuelExhausted
| fuel + 1, lk, op, left, right =>
  if isEquality op then liftBody (evalPairE fuel lk left right) (equalityBody op)
  else if isComparison op then liftBody (evalPairE fuel lk left right) (compareBody op)
  else if op == "+" || op == "-" then deltaE fuel lk op left right
  else if op == "*" || op == "%" then liftBody (evalPairE fuel lk left right) (numericBody op)
  else if op == "/" then liftBody (evalPairE fuel lk left right) divisionBody
  else ⟨.ok (errorFor "applybinary bad operator"), ["Cannot use " ++ op ++ " operator here"], false⟩

/-- `delta` (`+`/`-`): the unsupported check runs before the error
cascade; a time left-hand side routes through the duration machinery
(wrapping a non-duration right side in an `ExprDuration` carrying the
left side's granularity, or `day` for a date); otherwise numeric.  Since
the left side is known to be a time type in the granular branch,
`isGranularResult(lhs)` is exactly "`lhs.timeframe` is present". -/
def deltaE : Nat → Lk → String → ENode → ENode → EvalOut
| 0, _, _, _, _ => fuelExhausted
| fuel + 1, lk, op, left, right =>
  let p := evalPairE fuel lk left right
  match p.res with
  | .error m => ⟨.error m, p.log, p.circ⟩
  | .ok (lhs, rhs) =>
    match unsupportError lhs rhs with
    | (some noGo, lg) => ⟨.ok noGo, p.log ++ lg, p.circ⟩
    | (none, _) =>
      let timeLHS := isTimeFieldType lhs.dataType
      match errorCascade (if timeLHS then .error else .number) [lhs, rhs] with
      | some err => ⟨.ok err, p.log, p.circ⟩
      | none =>
        if timeLHS then
          if rhs.dataType == .duration then
            let o := applyNodeE fuel lk op left right
            ⟨o.res, p.log ++ o.log, p.circ || o.circ⟩
          else
            match lhs.timeframe with
            | some tfl =>
              let o := exprDurationApplyE fuel lk op left right tfl
              ⟨o.res, p.log ++ o.log, p.circ || o.circ⟩
            | none =>
              if lhs.dataType == .date then
                let o := exprDurationApplyE fuel lk op left right "day"
                ⟨o.res, p.log ++ o.log, p.circ || o.circ⟩
              else
                ⟨.ok (errorFor ("time plus " ++ dtName rhs.dataType)),
                 p.log ++ ["Can not offset time by " ++ sq ++ dtName rhs.dataType ++ sq],
                 p.circ⟩
        else
          let (r, lg) := numericBody op lhs rhs
          ⟨r, p.log ++ lg, p.circ⟩

/-- `ExprDuration.apply`: re-evaluates the left operand (as the source
does), type-checks it against `[timestamp, date]`, and for `+`/`-` on a
time value offsets by the duration; granularity is preserved exactly
when the timeframes match.  Any other shape falls back to the default
apply, i.e. `applyBinary` with the duration node as the right side. -/
def exprDurationApplyE : Nat → Lk → String → ENode → ENode → String → EvalOut
| 0, _, _, _, _, _ => fuelExhausted
| fuel + 1, lk, op, left, nNode, tf =>
  let lo := evalE fuel lk left
  match lo.res with
  | .error m => ⟨.error m, lo.log, lo.circ⟩
  | .ok lhs =>
    let tcLog :=
      if lhs.dataType != .error && !(lhs.dataType == .timestamp || lhs.dataType == .date) then
        [sq ++ "duration" ++ sq ++ " Can" ++ sq ++ "t use type " ++ ftInspect lhs]
      else []
    if isTimeFieldType lhs.dataType && (op == "+" || op == "-") then
      let no := evalE fuel lk nNode
      match no.res with
      | .error m => ⟨.error m, lo.log ++ tcLog ++ no.log, lo.circ || no.circ⟩
      | .ok num =>
        let logs := lo.log ++ tcLog ++ no.log
        let circ := lo.circ || no.circ
        if num.dataType != .number then
          ⟨.ok (errorFor "illegal unit expression"),
           logs ++ ["Duration units needs number not " ++ sq ++ dtName num.dataType], circ⟩
        else
          let resultGranularity : Option String :=
            if isGranularResult lhs && lhs.timeframe == some tf then some tf else none
          if lhs.dataType == .timestamp then
            ⟨.ok (timeResult
                   { dataType := .timestamp
                     expressionType := maxExpressionType lhs.expressionType num.expressionType
                     evalSpace := mergeEvalSpaces lhs.evalSpace num.evalSpace
                     value := .timeOffsetF .timestamp lhs.value op num.value tf }
                   resultGranularity),
             logs, circ⟩
          else if isDateUnit tf then
            ⟨.ok (timeResult
                   { dataType := .date
                     expressionType := maxExpressionType lhs.expressionType num.expressionType
                     evalSpace := mergeEvalSpaces lhs.evalSpace num.evalSpace
                     value := .timeOffsetF .date lhs.value op num.value tf }
                   resultGranularity),
             logs, circ⟩
          else
            ⟨.ok (errorFor "ofsset date error"),
             logs ++ ["Cannot offset date by " ++ tf], circ⟩
    else
      let o := applyBinaryE fuel lk op left (.durationNode nNode tf)
      ⟨o.res, lo.log ++ tcLog ++ o.log, lo.circ || o.circ⟩

end

end MalloySpec

namespace MalloySpec

/-! ## DefSpace and field declarations
(`DefSpace`, `FieldDeclaration.fieldDef` / `queryFieldDef`) -/

/-- The `DefSpace` wrapper: the name currently being defined plus the
`foundCircle` flag it sets when a lookup hits that name. -/
structure DefSpaceM where
  defineName : String
  foundCircle : Bool := false
deriving DecidableEq, Repr

/-- `DefSpace.lookup`: a path whose head is the name being defined
returns the circular-reference error and records `foundCircle`; every
other path (including the empty one — `symbol[0]` is then undefined) is
delegated to the wrapped space. -/
def DefSpaceM.lookupM {α : Type} (ds : DefSpaceM)
    (realLookup : List String → Except String α) (symbol : List String) :
    Except String α × DefSpaceM :=
match symbol with
| sym0 :: _ =>
  if sym0 == ds.defineName then
    (.error ("Circular reference to " ++ sq ++ ds.defineName ++ sq ++ " in definition"),
     { ds with foundCircle := true })
  else (realLookup symbol, ds)
| [] => (realLookup symbol, ds)

/-- The lookup function `fieldDef` gives expression evaluation: a
`DefSpace` wrapped around a base space.  A reference to the name being
defined yields the circular-reference error and trips `foundCircle`; a
name the base space does not know yields the `StaticSpace` "is not
defined" error. -/
def defSpaceLk (defineName : String) (base : String → Option ExprValue) : Lk :=
fun n =>
  if n == defineName then
    (.error ("Circular reference to " ++ sq ++ defineName ++ sq ++ " in definition"), true)
  else
    match base n with
    | some v => (.ok v, false)
    | none => (.error (sq ++ n ++ sq ++ " is not defined"), false)

/-- The slice of a `FieldTypeDef` that `queryFieldDef` constructs. -/
structure FieldTypeDefM where
  name : String
  type : DataType
  expressionType : Option ExpressionType := none
  timeframe : Option String := none
deriving DecidableEq, Repr

/-- `FieldDeclaration.queryFieldDef`: evaluate the declaration's
expression (a thrown exception is caught and logged as "Cannot
define").  An atomic result becomes the field's def; a non-atomic one
becomes the `error_defining_` sentinel, with the "unknown type" /
"unexpected type" diagnostic suppressed exactly when the field space is
a `DefSpace` whose `foundCircle` was set. -/
def queryFieldDefE (fuel : Nat) (lk : Lk) (exprName : String) (e : ENode) :
    FieldTypeDefM × List String × Bool :=
let out := evalE fuel lk e
match out.res with
| .error msg =>
  ({ name := "error_defining_" ++ exprName, type := .string },
   out.log ++ ["Cannot define " ++ sq ++ exprName ++ sq ++ ", " ++ msg], out.circ)
| .ok v =>
  if isAtomicFieldType v.dataType then
    ({ name := exprName
       type := v.dataType
       expressionType := some v.expressionType
       timeframe := if isGranularResult v && v.dataType == .timestamp then v.timeframe else none },
     out.log, out.circ)
  else
    let circularDef := out.circ
    let extra :=
      if !circularDef then
        if v.dataType == .unknown then
          ["Cannot define " ++ sq ++ exprName ++ sq ++ ", value has unknown type"]
        else
          ["Cannot define " ++ sq ++ exprName ++ sq ++ ", unexpected type: " ++ ftInspect v]
      else []
    ({ name := "error_defining_" ++ exprName, type := .string }, out.log ++ extra, out.circ)

/-- `FieldDeclaration.fieldDef`: wrap the space in a `DefSpace` for the
name being defined, then run `queryFieldDef`. -/
def fieldDefE (fuel : Nat) (base : String → Option ExprValue)
    (defineName exprName : String) (e : ENode) : FieldTypeDefM × List String × Bool :=
queryFieldDefE fuel (defSpaceLk defineName base) exprName e

/-! ## Field spaces (`StaticSpace`, `DynamicSpace`) -/

/-- A `model.Parameter`, as far as the spaces move it around (its
payload is never inspected by the covered operations). -/
structure ParamM where
  pname : String
deriving DecidableEq, Repr

/-- The identifying part of a `StructDef` (name/dialect), plus the
error-sentinel marker standing for `ErrorFactory.isErrorStructDef`
(the error factory is not part of the covered source). -/
structure StructLite where
  sname : String
  dialect : String
  isError : Bool := false
deriving DecidableEq, Repr

/-- `model.FieldDef`: an atomic (column or expression) field, a turtle
(named query as field), or a nested struct (join).  The nested struct's
own field list is never inspected by the covered operations, so only its
identifying part is kept. -/
inductive FieldDefM where
| atomicF (name : String) (asName : Option String) (t : DataType)
    (expressionType : Option ExpressionType)
| turtleF (name : String) (asName : Option String)
| structF (s : StructLite) (asName : Option String)
deriving DecidableEq, Repr

/-- The `name` property of a field def. -/
def FieldDefM.fdName : FieldDefM → String
| .atomicF n _ _ _ => n
| .turtleF n _ => n
| .structF s _ => s.sname

/-- The `as` property of a field def. -/
def FieldDefM.fdAs : FieldDefM → Option String
| .atomicF _ a _ _ => a
| .turtleF _ a => a
| .structF _ a => a

/-- `nameOf` (`field-utils`, not under `src/`; the covered source uses
the same `fld.as || fld.name` idiom at its line 80): the output name of
a field def. -/
def nameOf (fd : FieldDefM) : String :=
(fd.fdAs).getD fd.fdName

/-- A `model.StructDef`: identifying part, field list, parameters. -/
structure StructDefM where
  lite : StructLite
  fields : List FieldDefM
  parameters : List (String × ParamM) := []
deriving DecidableEq, Repr

/-- A space entry (`SpaceEntry`): a non-join nested struct
(`StructSpaceField`), a join in progress (`JoinSpaceField`, carrying the
struct def its `join.structDef()` produces), a turtle (`QueryField`,
whose `fieldDef()` is total), any other `SpaceField` (whose `fieldDef()`
may be undefined — `ReferenceField` and `WildSpaceField` do not override
it), or a parameter. -/
inductive SpaceEntryM where
| structEntry (fd : FieldDefM)
| joinEntry (s : StructLite)
| queryEntry (fd : FieldDefM)
| fieldEntry (fd : Option FieldDefM)
| paramEntry (p : ParamM)
deriving DecidableEq, Repr

/-- `StaticSpace.fromFieldDef`: structs become `StructSpaceField`s,
turtles become `QueryFieldStruct`s, everything else a column field. -/
def fromFieldDef : FieldDefM → SpaceEntryM
| .structF s a => .structEntry (.structF s a)
| .turtleF n a => .queryEntry (.turtleF n a)
| f => .fieldEntry (some f)

/-- Update an association list the way assignment to a JS object key
does: an existing key keeps its position, a new key is appended. -/
def setAssoc (l : List (String × SpaceEntryM)) (name : String) (v : SpaceEntryM) :
    List (String × SpaceEntryM) :=
if l.any (·.1 == name) then
  l.map (fun e => if e.1 == name then (name, v) else e)
else l ++ [(name, v)]

/-- Association-list update for the parameters map. -/
def setAssocP (l : List (String × ParamM)) (name : String) (v : ParamM) :
    List (String × ParamM) :=
if l.any (·.1 == name) then
  l.map (fun e => if e.1 == name then (name, v) else e)
else l ++ [(name, v)]

/-- The `StaticSpace` entry map: fields keyed by output name (later
duplicates overwrite in place), then parameters — a parameter whose name
collides with a field throws. -/
def spaceMap (sd : StructDefM) : Except String (List (String × SpaceEntryM)) :=
let base := sd.fields.foldl (fun m f => setAssoc m (nameOf f) (fromFieldDef f)) []
sd.parameters.foldlM
  (fun m (pp : String × ParamM) =>
    if m.any (·.1 == pp.1) then
      .error ("Field and parameter name conflict " ++ sq ++ pp.1)
    else .ok (m ++ [(pp.1, SpaceEntryM.paramEntry pp.2)]))
  base

/-- The mutable state of a `DynamicSpace`: the seeding struct, the entry
map, the frozen `StructDef` once `structDef()` has run, and the
`complete` flag `isComplete()` sets. -/
structure DynamicSpaceM where
  fromStruct : StructDefM
  entries : List (String × SpaceEntryM)
  final : Option StructDefM := none
  complete : Bool := false
deriving DecidableEq, Repr

/-- `new DynamicSpace(structDef)` with the entry map forced (the source
builds it lazily on first access; every covered operation accesses
it). -/
def DynamicSpaceM.make (sd : StructDefM) : Except String DynamicSpaceM := do
  let m ← spaceMap sd
  pure ⟨sd, m, none, false⟩

/-- An `accept`/`except` field-list edit. -/
inductive EditKind where
| accept
| except
deriving DecidableEq, Repr

/-- `FieldListEdit`: the kind of edit plus the referenced names. -/
structure FieldListEditM where
  edit : EditKind
  refs : List String
deriving DecidableEq, Repr

/-- `DynamicSpace.filteredFrom`: seed a space from the struct; with an
edit, drop all entries and re-add, in the original order, exactly those
whose inclusion in the name list matches the edit kind (`included ===
accepting`). -/
def filteredFrom (source : StructDefM) (choose : Option FieldListEditM) :
    Except String DynamicSpaceM := do
  let edited ← DynamicSpaceM.make source
  match choose with
  | none => pure edited
  | some ch =>
    pure { edited with
           entries := edited.entries.filter
             (fun e => (ch.refs.contains e.1) == (ch.edit == EditKind.accept)) }

/-- `DynamicSpace.setEntry`: throws "Space already final" once the space
has been finalized; otherwise updates the entry map. -/
def DynamicSpaceM.setEntryM (sp : DynamicSpaceM) (name : String) (v : SpaceEntryM) :
    Except String DynamicSpaceM :=
if sp.final.isSome then .error "Space already final"
else .ok { sp with entries := setAssoc sp.entries name v }

/-- Entry classification used by `structDef()`'s reorder: is the entry a
`StructSpaceField` (join)? -/
def SpaceEntryM.isStructKind : SpaceEntryM → Bool
| .structEntry _ => true
| .joinEntry _ => true
| _ => false

/-- Is the entry a `QueryField` (turtle)? -/
def SpaceEntryM.isQueryKind : SpaceEntryM → Bool
| .queryEntry _ => true
| _ => false

/-- Is the entry one of the remaining `SpaceField`s (atomic column,
expression field, reference, rename, wildcard)? -/
def SpaceEntryM.isFieldKind : SpaceEntryM → Bool
| .fieldEntry _ => true
| _ => false

/-- Emit one entry of the reordered list: a `JoinSpaceField` contributes
its join's struct def unless that is the error sentinel (and is recorded
for the fix-up pass); every other entry contributes its `fieldDef()`,
which throws when undefined. -/
def emitEntry (name : String) (e : SpaceEntryM) :
    Except String (List FieldDefM × List (String × StructLite)) :=
match e with
| .joinEntry s =>
  if s.isError then .ok ([], [])
  else .ok ([.structF s none], [(name, s)])
| .structEntry fd => .ok ([fd], [])
| .queryEntry fd => .ok ([fd], [])
| .fieldEntry (some fd) => .ok ([fd], [])
| .fieldEntry none =>
  .error (sq ++ name ++ sq ++ " doesn" ++ sq ++ "t have a FieldDef")
| .paramEntry _ => .ok ([], [])

/-- Emit a list of entries in order, concatenating field defs and
join fix-up records. -/
def emitAll : List (String × SpaceEntryM) →
    Except String (List FieldDefM × List (String × StructLite))
| [] => .ok ([], [])
| (n, e) :: rest => do
  let (fs, js) ← emitEntry n e
  let (fs2, js2) ← emitAll rest
  .ok (fs ++ fs2, js ++ js2)

/-- Collect parameters: the seeding struct's parameters, updated by the
space's parameter entries. -/
def collectParams (init : List (String × ParamM))
    (entries : List (String × SpaceEntryM)) : List (String × ParamM) :=
entries.foldl
  (fun ps e =>
    match e.2 with
    | .paramEntry p => setAssocP ps e.1 p
    | _ => ps)
  init

/-- `DynamicSpace.structDef()`: on first call, partition the entries
into plain fields, joins and turtles, emit them in that order into the
frozen `StructDef`, collect parameters, and record the join fix-up calls
that run *after* the field list is complete; subsequent calls return the
frozen value (running `isComplete()` again).  The returned fix-up list
is the second pass: `join.fixupJoinOn(this, joinStruct)` for each
emitted join, in emission order, against the completed space.
(When the collected parameters are empty the source skips the
`parameters` assignment; the seed's parameter map is then empty too, so
assigning the collected map unconditionally is the same.) -/
def DynamicSpaceM.structDefM (sp : DynamicSpaceM) :
    Except String (StructDefM × List (String × StructLite) × DynamicSpaceM) :=
match sp.final with
| some f => .ok (f, [], { sp with complete := true })
| none => do
  let fieldsE := sp.entries.filter (fun e => e.2.isFieldKind)
  let joinsE := sp.entries.filter (fun e => e.2.isStructKind)
  let turtlesE := sp.entries.filter (fun e => e.2.isQueryKind)
  let params := collectParams sp.fromStruct.parameters sp.entries
  let (emitted, fixups) ← emitAll (fieldsE ++ joinsE ++ turtlesE)
  let f : StructDefM := { lite := sp.fromStruct.lite, fields := emitted, parameters := params }
  .ok (f, fixups, { sp with final := some f, complete := true })

end MalloySpec

namespace MalloySpec

/-! ## Result spaces (`ResultSpace`, `ProjectFieldSpace`,
`IndexFieldSpace`) and segment executors -/

/-- A `model.QueryFieldDef` as a result space produces it: a plain name
reference (a string in the model), a filtered aliased name, a field def
carrying a type and an optional expression kind, or a turtle def. -/
inductive QueryFieldDefM where
| refQ (name : String)
| fanQ (name : String)
| defQ (name : String) (t : DataType) (expressionType : Option ExpressionType)
| turtleQ (name : String)
deriving DecidableEq, Repr

/-- The output name of a query field def (for the modelled
`mergeFields`). -/
def qfdName : QueryFieldDefM → String
| .refQ n => n
| .fanQ n => n
| .defQ n _ _ => n
| .turtleQ n => n

/-- Is the def a turtle? -/
def isTurtleQ : QueryFieldDefM → Bool
| .turtleQ _ => true
| _ => false

/-- Is the def an aggregate-kinded expression? -/
def isAggregateQ : QueryFieldDefM → Bool
| .defQ _ _ et => expressionIsAggregateOpt et
| _ => false

/-- `ResultSpace.canContain`: the base result space accepts
everything. -/
def reduceCanContain (_qd : QueryFieldDefM) : Bool × List String :=
(true, [])

/-- `ProjectFieldSpace.canContain`: strings and filtered aliased names
pass; a turtle logs "Cannot nest queries in project" and is refused; an
aggregate-kinded def logs "Cannot add aggregate measures to project" and
is refused; everything else passes. -/
def projectCanContain : QueryFieldDefM → Bool × List String
| .refQ _ => (true, [])
| .fanQ _ => (true, [])
| .turtleQ _ => (false, ["Cannot nest queries in project"])
| .defQ _ _ et =>
  if expressionIsAggregateOpt et then
    (false, ["Cannot add aggregate measures to project"])
  else (true, [])

/-- `ResultSpace.queryFieldDefs`: walk the space-field entries (each
modelled by its `getQueryFieldDef` result; `none` throws); an entry
refused by `canContain` is logged as "not legal in" the segment kind and
omitted. -/
def queryFieldDefsM (canContain : QueryFieldDefM → Bool × List String)
    (segName : String) :
    List (String × Option QueryFieldDefM) →
    Except String (List QueryFieldDefM × List String)
| [] => .ok ([], [])
| (n, some qd) :: rest => do
  let (keep, lg) := canContain qd
  let (fs, lgs) ← queryFieldDefsM canContain segName rest
  if keep then .ok (qd :: fs, lg ++ lgs)
  else .ok (fs, lg ++ [sq ++ n ++ sq ++ " not legal in " ++ segName] ++ lgs)
| (n, none) :: _ =>
  .error (sq ++ n ++ sq ++ " does not have a QueryFieldDef")

/-- Modelled from the spec ("refinement overlays additional
properties"; `field-utils` is not under `src/`): merging the refined
segment's fields with the newly added ones keeps the old fields first
and lets a new field of the same output name replace an old one. -/
def mergeFields (older : Option (List QueryFieldDefM)) (newer : List QueryFieldDefM) :
    List QueryFieldDefM :=
match older with
| none => newer
| some o => o.filter (fun f => !(newer.any (fun g => qfdName g == qfdName f))) ++ newer

/-- An `orderBy` element (`model.OrderBy`). -/
structure OrderByM where
  field : String
  dir : Option String := none
deriving DecidableEq, Repr

/-- A reduce or project `model.QuerySegment`. -/
structure QuerySegmentM where
  type : String
  fields : List QueryFieldDefM := []
  orderBy : Option (List OrderByM) := none
  byClause : Option ByM := none
  limit : Option Nat := none
  filterList : Option (List FilterExpressionM) := none
  extendSource : Option (List String) := none
deriving DecidableEq, Repr

/-- `ResultSpace.getPipeSegment` for reduce/project: build the segment
from `queryFieldDefs`, merge the refined segment's fields in, and carry
the refined segment's `extendSource` plus the names extended within this
segment (inline declares/joins; modelled by their names, which is all
the covered claims inspect). -/
def getPipeSegmentRP (segType : String)
    (canContain : QueryFieldDefM → Bool × List String)
    (refineFrom : Option QuerySegmentM)
    (entries : List (String × Option QueryFieldDefM))
    (extendNames : List String) :
    Except String (QuerySegmentM × List String) := do
  let (flds, lgs) ← queryFieldDefsM canContain segType entries
  let seg0 : QuerySegmentM := { type := segType, fields := flds }
  let seg1 := { seg0 with fields := mergeFields (refineFrom.map (·.fields)) seg0.fields }
  let seg2 :=
    match refineFrom.bind (·.extendSource) with
    | some es => { seg1 with extendSource := some es }
    | none => seg1
  let seg3 :=
    if extendNames.isEmpty then seg2
    else { seg2 with
           extendSource := some ((seg2.extendSource.getD []) ++ extendNames) }
  .ok (seg3, lgs)

/-- JS truthiness of the executor's numeric `limit` field (`undefined`
and `0` are falsy). -/
def jsTruthyLimit : Option Nat → Bool
| some n => n != 0
| none => false

/-- A `Limit` AST element, tagged with an identifier so a diagnostic can
be attributed to the element it is logged against. -/
structure LimitElM where
  elId : Nat
  limit : Nat
deriving DecidableEq, Repr

/-- The ordering slot of a `ReduceExecutor`: a `Top` (with `by`) or an
`Ordering` (whose `getOrderBy` returns its elements verbatim — the
lookup in `OrderBy.getOrderBy` is commented out in the source). -/
inductive OrderSourceM where
| topO (t : TopM)
| orderingO (obs : List OrderByM)
deriving DecidableEq, Repr

/-- The mutable state of a `ReduceExecutor`. -/
structure ReduceExecM where
  filters : List FilterExpressionM := []
  order : Option OrderSourceM := none
  limit : Option Nat := none
deriving DecidableEq, Repr

/-- `ReduceExecutor.execute` on a `Filter`: append the checked filter
list. -/
def ReduceExecM.executeFilter (ex : ReduceExecM) (f : FilterM) :
    ReduceExecM × List String :=
let (fl, lg) := f.getFilterList
({ ex with filters := ex.filters ++ fl }, lg)

/-- `ReduceExecutor.execute` on a `Limit`: a second (truthy) limit logs
"Query operation already limited" against the *new* element and the
first limit is kept. -/
def ReduceExecM.executeLimit (ex : ReduceExecM) (qp : LimitElM) :
    ReduceExecM × List (Nat × String) :=
if jsTruthyLimit ex.limit then (ex, [(qp.elId, "Query operation already limited")])
else ({ ex with limit := some qp.limit }, [])

/-- Iterated `ReduceExecutor.execute` over `Limit` elements. -/
def ReduceExecM.executeLimits (ex : ReduceExecM) :
    List LimitElM → ReduceExecM × List (Nat × String)
| [] => (ex, [])
| l :: rest =>
  let (ex1, lg1) := ex.executeLimit l
  let (ex2, lg2) := ex1.executeLimits rest
  (ex2, lg1 ++ lg2)

/-- `ReduceExecutor.refineFrom(from, to)`: inherit the refined segment's
ordering when this executor has none and its (truthy) limit when this
executor has none; then apply this executor's limit and ordering; the
final filter list is always the refined segment's filters followed by
this executor's (in the source `oldFilters` is an array and arrays are
truthy in JS, so the `!oldFilters` branch never runs). -/
def ReduceExecM.refineFromM (ex : ReduceExecM) (fromSeg : Option QuerySegmentM)
    (to0 : QuerySegmentM) : QuerySegmentM × List String :=
let to1 :=
  match fromSeg with
  | some f =>
    if f.type != "index" then
      let ta :=
        if ex.order.isNone then
          match f.orderBy with
          | some ob => { to0 with orderBy := some ob }
          | none =>
            match f.byClause with
            | some b => { to0 with byClause := some b }
            | none => to0
        else to0
      if !jsTruthyLimit ex.limit && jsTruthyLimit f.limit then
        { ta with limit := f.limit }
      else ta
    else to0
  | none => to0
let to2 := if jsTruthyLimit ex.limit then { to1 with limit := ex.limit } else to1
let (to3, lg) :=
  match ex.order with
  | some (.topO t) =>
    let (b, lgb) := t.getBy
    (match b with
     | some bb => { to2 with byClause := some bb }
     | none => to2, lgb)
  | some (.orderingO obs) => ({ to2 with orderBy := some obs }, [])
  | none => (to2, [])
let oldFilters := (fromSeg.bind (·.filterList)).getD []
({ to3 with filterList := some (oldFilters ++ ex.filters) }, lg)

/-- The error sentinel for a reduce segment (`ErrorFactory`, not under
`src/`; modelled from the spec's sentinel-segment description). -/
def errorReduceSegment : QuerySegmentM :=
{ type := "reduce" }

/-- `ReduceExecutor.finalize`: refining anything but a reduce segment is
refused with the error sentinel; otherwise the result space's segment is
built and `refineFrom` applied. -/
def ReduceExecM.finalizeM (ex : ReduceExecM) (fromSeg : Option QuerySegmentM)
    (entries : List (String × Option QueryFieldDefM))
    (extendNames : List String) :
    Except String (QuerySegmentM × List String) :=
match fromSeg with
| some f =>
  if f.type == "reduce" then do
    let (seg, lgs) ← getPipeSegmentRP "reduce" reduceCanContain (some f) entries extendNames
    let (seg2, lg2) := ex.refineFromM (some f) seg
    .ok (seg2, lgs ++ lg2)
  else
    .ok (errorReduceSegment, ["Can" ++ sq ++ "t refine reduce with " ++ f.type])
| none => do
  let (seg, lgs) ← getPipeSegmentRP "reduce" reduceCanContain none entries extendNames
  let (seg2, lg2) := ex.refineFromM none seg
  .ok (seg2, lgs ++ lg2)

/-- `ProjectExecutor.finalize` (same shape, refusing non-project
refinement and using the project result space). -/
def projectFinalizeM (ex : ReduceExecM) (fromSeg : Option QuerySegmentM)
    (entries : List (String × Option QueryFieldDefM))
    (extendNames : List String) :
    Except String (QuerySegmentM × List String) :=
match fromSeg with
| some f =>
  if f.type == "project" then do
    let (seg, lgs) ← getPipeSegmentRP "project" projectCanContain (some f) entries extendNames
    let (seg2, lg2) := ex.refineFromM (some f) seg
    .ok (seg2, lgs ++ lg2)
  else
    .ok ({ type := "project" }, ["Can" ++ sq ++ "t refine project with " ++ f.type])
| none => do
  let (seg, lgs) ← getPipeSegmentRP "project" projectCanContain none entries extendNames
  let (seg2, lg2) := ex.refineFromM none seg
  .ok (seg2, lgs ++ lg2)

/-- A sampling clause (its payload is never inspected). -/
abbrev SamplingM := String

/-- A `model.IndexSegment`. -/
structure IndexSegmentM where
  type : String := "index"
  fields : List String := []
  weightMeasure : Option String := none
  limit : Option Nat := none
  filterList : Option (List FilterExpressionM) := none
  sample : Option SamplingM := none
deriving DecidableEq, Repr

/-- A pipe segment as `IndexExecutor.finalize` receives it: reduce,
project or index. -/
inductive PipeSegMix where
| querySeg (s : QuerySegmentM)
| indexSeg (s : IndexSegmentM)
deriving DecidableEq, Repr

/-- The `type` of a mixed pipe segment. -/
def PipeSegMix.segType : PipeSegMix → String
| .querySeg s => s.type
| .indexSeg s => s.type

/-- Ordered-set insertion (a JS `Set` preserves insertion order). -/
def addSet (l : List String) (s : String) : List String :=
if l.contains s then l else l ++ [s]

/-- The mutable state of an `IndexExecutor` (including the
`IndexFieldSpace`'s `fieldList` set). -/
structure IndexExecM where
  filters : List FilterExpressionM := []
  limit : Option LimitElM := none
  indexOn : Option String := none
  sample : Option SamplingM := none
  fieldList : List String := []
deriving DecidableEq, Repr

/-- `IndexExecutor.execute` on a `Limit`: when a limit is already held,
"Ignored, too many limit: statements" is logged against the *earlier*
element (`this.limit.log(...)`), and the new element then replaces it
unconditionally. -/
def IndexExecM.executeLimit (ex : IndexExecM) (qp : LimitElM) :
    IndexExecM × List (Nat × String) :=
match ex.limit with
| some old => ({ ex with limit := some qp }, [(old.elId, "Ignored, too many limit: statements")])
| none => ({ ex with limit := some qp }, [])

/-- Iterated `IndexExecutor.execute` over `Limit` elements. -/
def IndexExecM.executeLimits (ex : IndexExecM) :
    List LimitElM → IndexExecM × List (Nat × String)
| [] => (ex, [])
| l :: rest =>
  let (ex1, lg1) := ex.executeLimit l
  let (ex2, lg2) := ex1.executeLimits rest
  (ex2, lg1 ++ lg2)

/-- `IndexFieldSpace.getPipeSegment`: the refined index segment's string
fields are added to the field set, and the segment is the set in
insertion order. -/
def indexGetPipeSegment (fieldList : List String) (refineIndex : Option IndexSegmentM) :
    IndexSegmentM :=
let fl :=
  match refineIndex with
  | some ri => ri.fields.foldl addSet fieldList
  | none => fieldList
{ type := "index", fields := fl }

/-- The body of `IndexExecutor.finalize` once the refinement target is
known to be an index (or absent): filters are the refined segment's
followed by this executor's (`oldFilters` is always a truthy array);
the refined segment's truthy limit is installed first and then
overridden by this executor's limit whenever one was executed (the held
`Limit` is an object, hence truthy even for value `0`); then weight and
sample. -/
def indexFinalizeBody (ex : IndexExecM) (ri : Option IndexSegmentM) : IndexSegmentM :=
let seg0 := indexGetPipeSegment ex.fieldList ri
let oldFilters := (ri.bind (·.filterList)).getD []
let seg1 := { seg0 with filterList := some (oldFilters ++ ex.filters) }
let seg2 :=
  match ri.bind (·.limit) with
  | some n => if n != 0 then { seg1 with limit := some n } else seg1
  | none => seg1
let seg3 :=
  match ex.limit with
  | some l => { seg2 with limit := some l.limit }
  | none => seg2
let seg4 :=
  match ex.indexOn with
  | some w => { seg3 with weightMeasure := some w }
  | none => seg3
let seg5 :=
  match ri.bind (·.sample) with
  | some s => { seg4 with sample := some s }
  | none => seg4
match ex.sample with
| some s => { seg5 with sample := some s }
| none => seg5

/-- `IndexExecutor.finalize`: refining anything but an index is refused
with the sentinel index segment. -/
def IndexExecM.finalizeM (ex : IndexExecM) (fromSeg : Option PipeSegMix) :
    IndexSegmentM × List String :=
match fromSeg with
| some (.querySeg s) =>
  ({ type := "index" }, ["Can" ++ sq ++ "t refine index with " ++ s.type])
| some (.indexSeg ri) => (indexFinalizeBody ex (some ri), [])
| none => (indexFinalizeBody ex none, [])

end MalloySpec

namespace MalloySpec

/-! ## Vocabulary for the theorem statements, and concrete inputs -/

/-- The circular-reference diagnostic for a name. -/
def circularMsg (n : String) : String :=
"Circular reference to " ++ sq ++ n ++ sq ++ " in definition"

/-- The data type the error cascade gives the result of each operator
class: boolean for equality/comparison, number for multiplicative and
division, and for additive `error` when the left side is a time type,
otherwise number. -/
def classResultType (op : String) (lhs : ExprValue) : DataType :=
if isEquality op then .boolean
else if isComparison op then .boolean
else if op == "+" || op == "-" then
  (if isTimeFieldType lhs.dataType then .error else .number)
else .number

/-- The sentinel plan fragment of a cascade value. -/
def cascadeFrag : Frag := .str (sq ++ "cascading error" ++ sq)

/-- What the plain (non-join, non-turtle) entries of a space contribute
to the finalized field list, in entry order. -/
def fieldKindDefs (entries : List (String × SpaceEntryM)) : List FieldDefM :=
entries.filterMap (fun e =>
  match e.2 with
  | .fieldEntry fd => fd
  | _ => none)

/-- What the join entries contribute, in entry order (a join whose
struct is the error sentinel is skipped). -/
def joinKindDefs (entries : List (String × SpaceEntryM)) : List FieldDefM :=
entries.filterMap (fun e =>
  match e.2 with
  | .structEntry fd => some fd
  | .joinEntry s => if s.isError then none else some (.structF s none)
  | _ => none)

/-- What the turtle entries contribute, in entry order. -/
def turtleKindDefs (entries : List (String × SpaceEntryM)) : List FieldDefM :=
entries.filterMap (fun e =>
  match e.2 with
  | .queryEntry fd => some fd
  | _ => none)

/-- The join-on fix-up calls the finalization schedules, in emission
order. -/
def joinFixups (entries : List (String × SpaceEntryM)) :
    List (String × StructLite) :=
entries.filterMap (fun e =>
  match e.2 with
  | .joinEntry s => if s.isError then none else some (e.1, s)
  | _ => none)

/-- A lookup in which no name is defined. -/
def lkEmpty : Lk := fun n => (.error (sq ++ n ++ sq ++ " is not defined"), false)

/-- A concrete error-typed operand. -/
def errOperand : ExprValue := errorFor "test error operand"

/-- A concrete scalar number operand. -/
def numOperand : ExprValue :=
{ dataType := .number, expressionType := .scalar, evalSpace := .input, value := .str "n" }

/-- A concrete unsupported-typed operand. -/
def unsupOperand : ExprValue :=
{ dataType := .unsupported, expressionType := .scalar, evalSpace := .input, value := .str "u" }

/-! ## Lattice lemmas -/

theorem maxExpressionType_scalar_left (x : ExpressionType) :
    maxExpressionType .scalar x = x := by
cases x <;> rfl

theorem maxExpressionType_scalar_right (x : ExpressionType) :
    maxExpressionType x .scalar = x := by
cases x <;> rfl

theorem maxOfExpressionTypes_pair (x y : ExpressionType) :
    maxOfExpressionTypes [x, y] = maxExpressionType x y := by
simp [maxOfExpressionTypes, List.foldl, maxExpressionType_scalar_left]

theorem mergeEvalSpaces_constant_left (x : EvalSpace) :
    mergeEvalSpaces .constant x = x := by
cases x <;> rfl

theorem mergeEvalSpacesList_pair (x y : EvalSpace) :
    mergeEvalSpacesList [x, y] = mergeEvalSpaces x y := by
simp [mergeEvalSpacesList, List.foldl, mergeEvalSpaces_constant_left]

/-! ## C2 -/

/-- Claim C2 (code behavior at the failing inputs): `getFilterList`
rejects nothing.  A filter marked WHERE through the `having` setter
keeps an aggregate boolean element with no diagnostic, and a filter
marked HAVING keeps a scalar boolean element with no diagnostic —
because the setter never assigns `havingClause`, the WHERE/HAVING checks
are dead code.  Moreover, even with `havingClause` forced to `true`, the
HAVING branch rejects exactly the calculations (while logging that a
calculation was *expected*): the condition is inverted. -/
theorem C2_getFilterList_code_behavior :
    ((FilterM.mk "filterElements" none
        [⟨"f1", ⟨.boolean, .aggregate, .output, .str "v1", none, none, none⟩⟩]).setHaving
        false).getFilterList
      = ([⟨"f1", .aggregate, .str "v1"⟩], [])
  ∧ ((FilterM.mk "filterElements" none
        [⟨"f2", ⟨.boolean, .scalar, .input, .str "v2", none, none, none⟩⟩]).setHaving
        true).getFilterList
      = ([⟨"f2", .scalar, .str "v2"⟩], [])
  ∧ (FilterM.mk "having" (some true)
        [⟨"f1", ⟨.boolean, .aggregate, .output, .str "v1", none, none, none⟩⟩]).getFilterList
      = ([], ["Aggregate or Analytical expression expected in HAVING filter"]) := by
refine ⟨rfl, rfl, rfl⟩

/-! ## C3 -/

/-- Claim C3 (code behavior at the failing input): `Top.getBy` logs
"top by expression must be an aggregate" precisely when the by-expression
*is* an aggregate, and stays silent when it is not — the opposite of the
claim. -/
theorem C3_getBy_code_behavior :
    (TopM.mk 5 (some (.byExpr
        ⟨.number, .aggregate, .output, .str "agg", none, none, none⟩))).getBy
      = (some (.byExpressionB (.str "agg")), ["top by expression must be an aggregate"])
  ∧ (TopM.mk 5 (some (.byExpr
        ⟨.number, .scalar, .input, .str "sc", none, none, none⟩))).getBy
      = (some (.byExpressionB (.str "sc")), []) := by
refine ⟨rfl, rfl⟩

end MalloySpec

namespace MalloySpec

/-! ## C7 -/

/-- Claim C7: `filteredFrom(S, accept L)` yields a space whose entries
are exactly the entries of `S` whose names appear in `L`;
`filteredFrom(S, except L)` yields exactly those whose names do not
appear in `L`; with no edit every entry is kept. -/
theorem C7_filteredFrom (S : StructDefM) (L : List String)
    (m : List (String × SpaceEntryM)) (h : spaceMap S = .ok m) :
    filteredFrom S (some ⟨.accept, L⟩)
      = .ok ⟨S, m.filter (fun e => L.contains e.1), none, false⟩
  ∧ filteredFrom S (some ⟨.except, L⟩)
      = .ok ⟨S, m.filter (fun e => !(L.contains e.1)), none, false⟩
  ∧ filteredFrom S none = .ok ⟨S, m, none, false⟩ := by
have hm : DynamicSpaceM.make S = .ok ⟨S, m, none, false⟩ := by
  unfold DynamicSpaceM.make
  rw [h]
  rfl
refine ⟨?_, ?_, ?_⟩ <;>
  simp [filteredFrom, hm, show (EditKind.except == EditKind.accept) = false from rfl]

/-- Witness for C7 at a concrete two-field struct and the list
`["a"]`. -/
theorem C7_filteredFrom_witness :
    filteredFrom ⟨⟨"s", "d", false⟩,
        [.atomicF "a" none .string none, .atomicF "b" none .number none], []⟩
        (some ⟨.accept, ["a"]⟩)
      = .ok ⟨⟨⟨"s", "d", false⟩,
          [.atomicF "a" none .string none, .atomicF "b" none .number none], []⟩,
          ([("a", .fieldEntry (some (.atomicF "a" none .string none))),
            ("b", .fieldEntry (some (.atomicF "b" none .number none)))].filter
             (fun e => ["a"].contains e.1)),
          none, false⟩ :=
(C7_filteredFrom
  ⟨⟨"s", "d", false⟩,
    [.atomicF "a" none .string none, .atomicF "b" none .number none], []⟩
  ["a"]
  [("a", .fieldEntry (some (.atomicF "a" none .string none))),
   ("b", .fieldEntry (some (.atomicF "b" none .number none)))]
  rfl).1

/-! ## C6 -/

/-- Claim C6: once `structDef()` has produced a value, calling it again
returns the identical `StructDef` (with no further fix-up work), and any
subsequent `setEntry` throws "Space already final". -/
theorem C6_finalize_once (sp : DynamicSpaceM) (f : StructDefM)
    (fx : List (String × StructLite)) (sp1 : DynamicSpaceM)
    (h : sp.structDefM = .ok (f, fx, sp1)) :
    sp1.structDefM = .ok (f, [], { sp1 with complete := true })
  ∧ ∀ (n : String) (v : SpaceEntryM),
      sp1.setEntryM n v = .error "Space already final" := by
have hfin : sp1.final = some f := by
  cases hf : sp.final with
  | some f0 =>
    simp [DynamicSpaceM.structDefM, hf] at h
    obtain ⟨h1, _, h3⟩ := h
    rw [← h3, ← h1]
  | none =>
    rw [DynamicSpaceM.structDefM] at h
    simp only [hf] at h
    cases hE : emitAll (sp.entries.filter (fun e => e.2.isFieldKind) ++
        sp.entries.filter (fun e => e.2.isStructKind) ++
        sp.entries.filter (fun e => e.2.isQueryKind)) with
    | error msg => rw [hE] at h; simp [Bind.bind, Except.bind] at h
    | ok pr =>
      rw [hE] at h
      simp [Bind.bind, Except.bind] at h
      obtain ⟨h1, _, h3⟩ := h
      rw [← h3, ← h1]
constructor
· rw [DynamicSpaceM.structDefM]
  simp only [hfin]
· intro n v
  rw [DynamicSpaceM.setEntryM]
  simp [hfin]

/-- Witness for C6 at a concrete one-entry space. -/
theorem C6_finalize_once_witness :
    (⟨⟨⟨"s", "d", false⟩, [], []⟩,
       [("a", .fieldEntry (some (.atomicF "a" none .string none)))],
       some ⟨⟨"s", "d", false⟩, [.atomicF "a" none .string none], []⟩,
       true⟩ : DynamicSpaceM).structDefM
      = .ok (⟨⟨"s", "d", false⟩, [.atomicF "a" none .string none], []⟩, [],
         { (⟨⟨⟨"s", "d", false⟩, [], []⟩,
             [("a", .fieldEntry (some (.atomicF "a" none .string none)))],
             some ⟨⟨"s", "d", false⟩, [.atomicF "a" none .string none], []⟩,
             true⟩ : DynamicSpaceM) with complete := true })
  ∧ ∀ (n : String) (v : SpaceEntryM),
      (⟨⟨⟨"s", "d", false⟩, [], []⟩,
         [("a", .fieldEntry (some (.atomicF "a" none .string none)))],
         some ⟨⟨"s", "d", false⟩, [.atomicF "a" none .string none], []⟩,
         true⟩ : DynamicSpaceM).setEntryM n v = .error "Space already final" :=
C6_finalize_once
  ⟨⟨⟨"s", "d", false⟩, [], []⟩,
    [("a", .fieldEntry (some (.atomicF "a" none .string none)))], none, false⟩
  ⟨⟨"s", "d", false⟩, [.atomicF "a" none .string none], []⟩ []
  ⟨⟨⟨"s", "d", false⟩, [], []⟩,
    [("a", .fieldEntry (some (.atomicF "a" none .string none)))],
    some ⟨⟨"s", "d", false⟩, [.atomicF "a" none .string none], []⟩, true⟩
  rfl

end MalloySpec

namespace MalloySpec

/-! ## C5 -/

/-- Emission over a concatenation decomposes. -/
theorem emitAll_append_ok {a b : List (String × SpaceEntryM)}
    {f : List FieldDefM} {j : List (String × StructLite)}
    (h : emitAll (a ++ b) = .ok (f, j)) :
    ∃ f1 j1 f2 j2, emitAll a = .ok (f1, j1) ∧ emitAll b = .ok (f2, j2)
      ∧ f = f1 ++ f2 ∧ j = j1 ++ j2 := by
induction a generalizing f j with
| nil => exact ⟨[], [], f, j, rfl, h, rfl, rfl⟩
| cons e rest ih =>
  rw [List.cons_append, emitAll] at h
  cases hE : emitEntry e.1 e.2 with
  | error m => rw [hE] at h; simp [Bind.bind, Except.bind] at h
  | ok pr =>
    rw [hE] at h
    cases hR : emitAll (rest ++ b) with
    | error m => rw [hR] at h; simp [Bind.bind, Except.bind] at h
    | ok pr2 =>
      rw [hR] at h
      simp [Bind.bind, Except.bind] at h
      obtain ⟨f1, j1, f2, j2, hA, hB, hf, hj⟩ := @ih pr2.1 pr2.2 (by rw [hR])
      refine ⟨pr.1 ++ f1, pr.2 ++ j1, f2, j2, ?_, hB, ?_, ?_⟩
      · rw [emitAll, hE, hA]
        rfl
      · rw [← h.1, hf, List.append_assoc]
      · rw [← h.2, hj, List.append_assoc]

/-- Emitting the plain-field entries of a list yields exactly their
field defs (in order) and no fix-ups — whenever it does not throw. -/
theorem emitAll_fieldKind (l : List (String × SpaceEntryM))
    {fs : List FieldDefM} {js : List (String × StructLite)}
    (h : emitAll (l.filter (fun e => e.2.isFieldKind)) = .ok (fs, js)) :
    fs = fieldKindDefs l ∧ js = [] := by
induction l generalizing fs js with
| nil =>
  simp [emitAll] at h
  simp [fieldKindDefs, ← h.1, ← h.2]
| cons e rest ih =>
  cases he : e.2 with
  | fieldEntry fd =>
    rw [List.filter_cons_of_pos (by simp [he, SpaceEntryM.isFieldKind])] at h
    cases fd with
    | none => rw [emitAll, he] at h; simp [emitEntry, Bind.bind, Except.bind] at h
    | some fd0 =>
      rw [emitAll, he] at h
      cases hR : emitAll (rest.filter (fun e => e.2.isFieldKind)) with
      | error m => rw [hR] at h; simp [emitEntry, Bind.bind, Except.bind] at h
      | ok pr2 =>
        rw [hR] at h
        simp [emitEntry, Bind.bind, Except.bind] at h
        obtain ⟨h1, h2⟩ := @ih pr2.1 pr2.2 (by rw [hR])
        constructor
        · rw [← h.1, h1]
          simp [fieldKindDefs, List.filterMap_cons, he]
        · rw [← h.2, h2]
  | structEntry fd =>
    rw [List.filter_cons_of_neg (by simp [he, SpaceEntryM.isFieldKind])] at h
    obtain ⟨h1, h2⟩ := ih h
    exact ⟨by rw [h1]; simp [fieldKindDefs, List.filterMap_cons, he], h2⟩
  | joinEntry s =>
    rw [List.filter_cons_of_neg (by simp [he, SpaceEntryM.isFieldKind])] at h
    obtain ⟨h1, h2⟩ := ih h
    exact ⟨by rw [h1]; simp [fieldKindDefs, List.filterMap_cons, he], h2⟩
  | queryEntry fd =>
    rw [List.filter_cons_of_neg (by simp [he, SpaceEntryM.isFieldKind])] at h
    obtain ⟨h1, h2⟩ := ih h
    exact ⟨by rw [h1]; simp [fieldKindDefs, List.filterMap_cons, he], h2⟩
  | paramEntry p =>
    rw [List.filter_cons_of_neg (by simp [he, SpaceEntryM.isFieldKind])] at h
    obtain ⟨h1, h2⟩ := ih h
    exact ⟨by rw [h1]; simp [fieldKindDefs, List.filterMap_cons, he], h2⟩

/-- Emitting the join entries of a list yields exactly the join-derived
struct field defs and the fix-up records, in order. -/
theorem emitAll_structKind (l : List (String × SpaceEntryM)) :
    emitAll (l.filter (fun e => e.2.isStructKind))
      = .ok (joinKindDefs l, joinFixups l) := by
induction l with
| nil => simp [emitAll, joinKindDefs, joinFixups]
| cons e rest ih =>
  cases he : e.2 with
  | structEntry fd =>
    rw [List.filter_cons_of_pos (by simp [he, SpaceEntryM.isStructKind])]
    rw [emitAll, he, joinKindDefs, joinFixups, List.filterMap_cons, List.filterMap_cons, he]
    rw [show emitEntry e.1 (.structEntry fd) = .ok ([fd], []) from rfl, ih]
    rfl
  | joinEntry s =>
    rw [List.filter_cons_of_pos (by simp [he, SpaceEntryM.isStructKind])]
    rw [emitAll, he, joinKindDefs, joinFixups, List.filterMap_cons, List.filterMap_cons, he]
    cases hs : s.isError with
    | true =>
      rw [show emitEntry e.1 (.joinEntry s) = .ok ([], []) from by simp [emitEntry, hs], ih]
      simp [hs]
      rfl
    | false =>
      rw [show emitEntry e.1 (.joinEntry s) = .ok ([.structF s none], [(e.1, s)]) from by
        simp [emitEntry, hs], ih]
      simp [hs]
      rfl
  | fieldEntry fd =>
    rw [List.filter_cons_of_neg (by simp [he, SpaceEntryM.isStructKind])]
    rw [joinKindDefs, joinFixups, List.filterMap_cons, List.filterMap_cons, he, ih]
    rfl
  | queryEntry fd =>
    rw [List.filter_cons_of_neg (by simp [he, SpaceEntryM.isStructKind])]
    rw [joinKindDefs, joinFixups, List.filterMap_cons, List.filterMap_cons, he, ih]
    rfl
  | paramEntry p =>
    rw [List.filter_cons_of_neg (by simp [he, SpaceEntryM.isStructKind])]
    rw [joinKindDefs, joinFixups, List.filterMap_cons, List.filterMap_cons, he, ih]
    rfl

/-- Emitting the turtle entries of a list yields exactly their turtle
defs, in order, and no fix-ups. -/
theorem emitAll_queryKind (l : List (String × SpaceEntryM)) :
    emitAll (l.filter (fun e => e.2.isQueryKind))
      = .ok (turtleKindDefs l, []) := by
induction l with
| nil => simp [emitAll, turtleKindDefs]
| cons e rest ih =>
  cases he : e.2 with
  | queryEntry fd =>
    rw [List.filter_cons_of_pos (by simp [he, SpaceEntryM.isQueryKind])]
    rw [emitAll, he, turtleKindDefs, List.filterMap_cons, he]
    rw [show emitEntry e.1 (.queryEntry fd) = .ok ([fd], []) from rfl, ih]
    rfl
  | structEntry fd =>
    rw [List.filter_cons_of_neg (by simp [he, SpaceEntryM.isQueryKind])]
    rw [turtleKindDefs, List.filterMap_cons, he, ih]
    rfl
  | joinEntry s =>
    rw [List.filter_cons_of_neg (by simp [he, SpaceEntryM.isQueryKind])]
    rw [turtleKindDefs, List.filterMap_cons, he, ih]
    rfl
  | fieldEntry fd =>
    rw [List.filter_cons_of_neg (by simp [he, SpaceEntryM.isQueryKind])]
    rw [turtleKindDefs, List.filterMap_cons, he, ih]
    rfl
  | paramEntry p =>
    rw [List.filter_cons_of_neg (by simp [he, SpaceEntryM.isQueryKind])]
    rw [turtleKindDefs, List.filterMap_cons, he, ih]
    rfl

/-- Claim C5: on its first finalization a `DynamicSpace` emits its
fields in the deterministic order plain fields (insertion order), then
join structs, then turtles; the join-on fix-up calls form the second
pass, scheduled after the whole field list is emitted, and the space is
then frozen. -/
theorem C5_structDef_order (sp : DynamicSpaceM) (f : StructDefM)
    (fx : List (String × StructLite)) (sp1 : DynamicSpaceM)
    (h0 : sp.final = none) (h : sp.structDefM = .ok (f, fx, sp1)) :
    f.fields = fieldKindDefs sp.entries ++ joinKindDefs sp.entries
        ++ turtleKindDefs sp.entries
  ∧ fx = joinFixups sp.entries
  ∧ f.parameters = collectParams sp.fromStruct.parameters sp.entries
  ∧ sp1.final = some f := by
rw [DynamicSpaceM.structDefM] at h
simp only [h0] at h
cases hE : emitAll (sp.entries.filter (fun e => e.2.isFieldKind) ++
    sp.entries.filter (fun e => e.2.isStructKind) ++
    sp.entries.filter (fun e => e.2.isQueryKind)) with
| error m => rw [hE] at h; simp [Bind.bind, Except.bind] at h
| ok pr =>
  rw [hE] at h
  simp [Bind.bind, Except.bind] at h
  obtain ⟨f12, j12, f3, j3, hAB, hC, hf, hj⟩ := emitAll_append_ok hE
  obtain ⟨f1, j1, f2, j2, hA, hB, hf2, hj2⟩ := emitAll_append_ok hAB
  obtain ⟨hA1, hA2⟩ := emitAll_fieldKind sp.entries hA
  rw [emitAll_structKind sp.entries] at hB
  rw [emitAll_queryKind sp.entries] at hC
  obtain ⟨hB1, hB2⟩ : f2 = joinKindDefs sp.entries ∧ j2 = joinFixups sp.entries := by
    cases hB
    exact ⟨rfl, rfl⟩
  obtain ⟨hC1, hC2⟩ : f3 = turtleKindDefs sp.entries ∧ j3 = [] := by
    cases hC
    exact ⟨rfl, rfl⟩
  refine ⟨?_, ?_, ?_, ?_⟩
  · rw [← h.1, hf, hf2, hA1, hB1, hC1]
  · rw [← h.2.1, hj, hj2, hA2, hB2, hC2]
    simp
  · rw [← h.1]
  · rw [← h.2.2]
    simpa using h.1

/-- Witness for C5 at a space whose entries interleave a turtle, a
join, a plain field and a parameter. -/
theorem C5_structDef_order_witness :
    (⟨⟨⟨"s", "d", false⟩, [], []⟩,
       [("t", .queryEntry (.turtleF "t" none)),
        ("j", .joinEntry ⟨"js", "d", false⟩),
        ("a", .fieldEntry (some (.atomicF "a" none .string none))),
        ("p", .paramEntry ⟨"p"⟩)], none, false⟩ : DynamicSpaceM).final = none
  ∧ ((⟨⟨⟨"s", "d", false⟩, [], []⟩,
       [("t", .queryEntry (.turtleF "t" none)),
        ("j", .joinEntry ⟨"js", "d", false⟩),
        ("a", .fieldEntry (some (.atomicF "a" none .string none))),
        ("p", .paramEntry ⟨"p"⟩)], none, false⟩ : DynamicSpaceM).structDefM
      = .ok (⟨⟨"s", "d", false⟩,
          [.atomicF "a" none .string none,
           .structF ⟨"js", "d", false⟩ none,
           .turtleF "t" none], [("p", ⟨"p"⟩)]⟩,
         [("j", ⟨"js", "d", false⟩)],
         ⟨⟨⟨"s", "d", false⟩, [], []⟩,
           [("t", .queryEntry (.turtleF "t" none)),
            ("j", .joinEntry ⟨"js", "d", false⟩),
            ("a", .fieldEntry (some (.atomicF "a" none .string none))),
            ("p", .paramEntry ⟨"p"⟩)],
           some ⟨⟨"s", "d", false⟩,
             [.atomicF "a" none .string none,
              .structF ⟨"js", "d", false⟩ none,
              .turtleF "t" none], [("p", ⟨"p"⟩)]⟩, true⟩))
  ∧ (⟨⟨"s", "d", false⟩,
       [.atomicF "a" none .string none,
        .structF ⟨"js", "d", false⟩ none,
        .turtleF "t" none], [("p", ⟨"p"⟩)]⟩ : StructDefM).fields
      = fieldKindDefs
          [("t", .queryEntry (.turtleF "t" none)),
           ("j", .joinEntry ⟨"js", "d", false⟩),
           ("a", .fieldEntry (some (.atomicF "a" none .string none))),
           ("p", .paramEntry ⟨"p"⟩)]
        ++ joinKindDefs
          [("t", .queryEntry (.turtleF "t" none)),
           ("j", .joinEntry ⟨"js", "d", false⟩),
           ("a", .fieldEntry (some (.atomicF "a" none .string none))),
           ("p", .paramEntry ⟨"p"⟩)]
        ++ turtleKindDefs
          [("t", .queryEntry (.turtleF "t" none)),
           ("j", .joinEntry ⟨"js", "d", false⟩),
           ("a", .fieldEntry (some (.atomicF "a" none .string none))),
           ("p", .paramEntry ⟨"p"⟩)] :=
⟨rfl, rfl,
 (C5_structDef_order
   ⟨⟨⟨"s", "d", false⟩, [], []⟩,
     [("t", .queryEntry (.turtleF "t" none)),
      ("j", .joinEntry ⟨"js", "d", false⟩),
      ("a", .fieldEntry (some (.atomicF "a" none .string none))),
      ("p", .paramEntry ⟨"p"⟩)], none, false⟩
   ⟨⟨"s", "d", false⟩,
     [.atomicF "a" none .string none,
      .structF ⟨"js", "d", false⟩ none,
      .turtleF "t" none], [("p", ⟨"p"⟩)]⟩
   [("j", ⟨"js", "d", false⟩)]
   ⟨⟨⟨"s", "d", false⟩, [], []⟩,
     [("t", .queryEntry (.turtleF "t" none)),
      ("j", .joinEntry ⟨"js", "d", false⟩),
      ("a", .fieldEntry (some (.atomicF "a" none .string none))),
      ("p", .paramEntry ⟨"p"⟩)],
     some ⟨⟨"s", "d", false⟩,
       [.atomicF "a" none .string none,
        .structF ⟨"js", "d", false⟩ none,
        .turtleF "t" none], [("p", ⟨"p"⟩)]⟩, true⟩
   rfl rfl).1⟩

end MalloySpec

namespace MalloySpec

/-! ## C10 -/

/-- Executing further `limit:` statements on an index executor that
already holds one: each step logs against the previously held (earlier)
element and installs the new one. -/
theorem IndexExec_limits_held (ls : List LimitElM) (ex : IndexExecM)
    (cur : LimitElM) (h : ex.limit = some cur) :
    (ex.executeLimits ls).2
      = ((cur :: ls).dropLast).map
          (fun x => (x.elId, "Ignored, too many limit: statements"))
  ∧ (ex.executeLimits ls).1.limit = some (ls.getLastD cur) := by
induction ls generalizing ex cur with
| nil => simp [IndexExecM.executeLimits, h, List.getLastD]
| cons x xs ih =>
  have hstep : ex.executeLimit x
      = ({ ex with limit := some x }, [(cur.elId, "Ignored, too many limit: statements")]) := by
    rw [IndexExecM.executeLimit, h]
  obtain ⟨ih1, ih2⟩ := ih { ex with limit := some x } x rfl
  constructor
  · rw [IndexExecM.executeLimits, hstep]
    simp only [ih1, List.dropLast_cons₂, List.map_cons]
    rfl
  · rw [IndexExecM.executeLimits, hstep]
    simp only [ih2, List.getLastD_cons]

/-- Once an index executor holds a limit, the finalized segment (with no
refinement target) carries that limit's value. -/
theorem IndexExec_finalize_limit (ex : IndexExecM) (cur : LimitElM)
    (h : ex.limit = some cur) :
    (ex.finalizeM none).1.limit = some cur.limit := by
obtain ⟨fs', lim', io', sa', fl'⟩ := ex
simp only [IndexExecM.finalizeM]
cases h
cases io' <;> cases sa' <;>
  simp [indexFinalizeBody, indexGetPipeSegment]

/-- Claim C10: executing more than one `limit:` in an index segment logs
"Ignored, too many limit: statements" against each earlier `Limit`
element, the executor ends up holding the last one, and the finalized
index segment's limit is the last element's value — unlike a reduce
executor, which keeps the first (truthy) limit and logs
"Query operation already limited" against the later element. -/
theorem C10_index_limit_last_wins (ex : IndexExecM) (rex : ReduceExecM)
    (l : LimitElM) (rest : List LimitElM) (a b : LimitElM)
    (hex : ex.limit = none) (hrex : rex.limit = none) (ha : a.limit ≠ 0) :
    (ex.executeLimits (l :: rest)).2
      = ((l :: rest).dropLast).map
          (fun x => (x.elId, "Ignored, too many limit: statements"))
  ∧ (ex.executeLimits (l :: rest)).1.limit = some (rest.getLastD l)
  ∧ ((ex.executeLimits (l :: rest)).1.finalizeM none).1.limit
      = some (rest.getLastD l).limit
  ∧ (rex.executeLimits [a, b]).1.limit = some a.limit
  ∧ (rex.executeLimits [a, b]).2 = [(b.elId, "Query operation already limited")] := by
have hstep : ex.executeLimit l = ({ ex with limit := some l }, []) := by
  rw [IndexExecM.executeLimit, hex]
obtain ⟨ih1, ih2⟩ := IndexExec_limits_held rest { ex with limit := some l } l rfl
have hrun : (ex.executeLimits (l :: rest)).2
    = ((l :: rest).dropLast).map
        (fun x => (x.elId, "Ignored, too many limit: statements")) := by
  rw [IndexExecM.executeLimits, hstep]
  simpa using ih1
have hlim : (ex.executeLimits (l :: rest)).1.limit = some (rest.getLastD l) := by
  rw [IndexExecM.executeLimits, hstep]
  simpa using ih2
have hred : rex.executeLimits [a, b]
    = ({ rex with limit := some a.limit }, [(b.elId, "Query operation already limited")]) := by
  rw [ReduceExecM.executeLimits, ReduceExecM.executeLimit, hrex]
  simp only [jsTruthyLimit]
  rw [ReduceExecM.executeLimits, ReduceExecM.executeLimit]
  simp only [jsTruthyLimit]
  simp [ha, ReduceExecM.executeLimits]
refine ⟨hrun, hlim, ?_, ?_, ?_⟩
· exact IndexExec_finalize_limit _ _ hlim
· rw [hred]
· rw [hred]

/-- Witness for C10 with three index limits and two reduce limits. -/
theorem C10_index_limit_last_wins_witness :
    (IndexExecM.executeLimits ⟨[], none, none, none, []⟩ [⟨1, 10⟩, ⟨2, 20⟩, ⟨3, 30⟩]).2
      = (([⟨1, 10⟩, ⟨2, 20⟩, ⟨3, 30⟩] : List LimitElM).dropLast).map
          (fun x => (x.elId, "Ignored, too many limit: statements"))
  ∧ (IndexExecM.executeLimits ⟨[], none, none, none, []⟩ [⟨1, 10⟩, ⟨2, 20⟩, ⟨3, 30⟩]).1.limit
      = some (([⟨2, 20⟩, ⟨3, 30⟩] : List LimitElM).getLastD ⟨1, 10⟩)
  ∧ ((IndexExecM.executeLimits ⟨[], none, none, none, []⟩
        [⟨1, 10⟩, ⟨2, 20⟩, ⟨3, 30⟩]).1.finalizeM none).1.limit
      = some (([⟨2, 20⟩, ⟨3, 30⟩] : List LimitElM).getLastD ⟨1, 10⟩).limit
  ∧ (ReduceExecM.executeLimits ⟨[], none, none⟩ [⟨4, 7⟩, ⟨5, 9⟩]).1.limit = some 7
  ∧ (ReduceExecM.executeLimits ⟨[], none, none⟩ [⟨4, 7⟩, ⟨5, 9⟩]).2
      = [(5, "Query operation already limited")] :=
C10_index_limit_last_wins ⟨[], none, none, none, []⟩ ⟨[], none, none⟩
  ⟨1, 10⟩ [⟨2, 20⟩, ⟨3, 30⟩] ⟨4, 7⟩ ⟨5, 9⟩ rfl rfl (by decide)

end MalloySpec

namespace MalloySpec

/-! ## C8 -/

/-- The segment `getPipeSegment` builds for reduce/project carries no
ordering, by, limit or filters of its own — only type, fields and
extend-source. -/
theorem getPipeSegmentRP_shape (segType : String)
    (cc : QueryFieldDefM → Bool × List String) (rf : Option QuerySegmentM)
    (entries : List (String × Option QueryFieldDefM)) (extendNames : List String)
    (seg : QuerySegmentM) (lgs : List String)
    (h : getPipeSegmentRP segType cc rf entries extendNames = .ok (seg, lgs)) :
    seg.orderBy = none ∧ seg.byClause = none ∧ seg.limit = none
  ∧ seg.filterList = none ∧ seg.type = segType
  ∧ ∃ flds, queryFieldDefsM cc segType entries = .ok (flds, lgs)
      ∧ seg.fields = mergeFields (rf.map (·.fields)) flds := by
rw [getPipeSegmentRP] at h
cases hQ : queryFieldDefsM cc segType entries with
| error m => rw [hQ] at h; simp [Bind.bind, Except.bind] at h
| ok pr =>
  rw [hQ] at h
  simp only [Bind.bind, Except.bind] at h
  cases hM : rf.bind (fun x => x.extendSource) with
  | none =>
    rw [hM] at h
    by_cases hN : extendNames.isEmpty <;>
      simp only [hN, if_true, if_false, Bool.false_eq_true, ite_true, ite_false] at h <;>
      · obtain ⟨h1, h2⟩ := Prod.mk.injEq .. ▸ (Except.ok.injEq .. ▸ h)
        refine ⟨by rw [← h1], by rw [← h1], by rw [← h1], by rw [← h1], by rw [← h1],
          pr.1, by exact congrArg Except.ok (Prod.ext rfl h2), by rw [← h1]⟩
  | some es =>
    rw [hM] at h
    by_cases hN : extendNames.isEmpty <;>
      simp only [hN, if_true, if_false, Bool.false_eq_true, ite_true, ite_false] at h <;>
      · obtain ⟨h1, h2⟩ := Prod.mk.injEq .. ▸ (Except.ok.injEq .. ▸ h)
        refine ⟨by rw [← h1], by rw [← h1], by rw [← h1], by rw [← h1], by rw [← h1],
          pr.1, by exact congrArg Except.ok (Prod.ext rfl h2), by rw [← h1]⟩

/-- The properties of `refineFrom` the claim states, for a base segment
with no ordering/by/limit of its own (which is what `getPipeSegment`
produces). -/
theorem refineFromM_props (ex : ReduceExecM) (f : QuerySegmentM) (to0 : QuerySegmentM)
    (h1 : to0.orderBy = none) (h2 : to0.byClause = none) (h3 : to0.limit = none)
    (hty : f.type = "reduce") :
    (ex.refineFromM (some f) to0).1.filterList
      = some ((f.filterList.getD []) ++ ex.filters)
  ∧ (ex.order = none → f.orderBy.isSome →
      (ex.refineFromM (some f) to0).1.orderBy = f.orderBy)
  ∧ (ex.order = none → f.orderBy = none → f.byClause.isSome →
      (ex.refineFromM (some f) to0).1.byClause = f.byClause)
  ∧ (jsTruthyLimit ex.limit = false → jsTruthyLimit f.limit = true →
      (ex.refineFromM (some f) to0).1.limit = f.limit) := by
have hidx : (f.type != "index") = true := by rw [hty]; rfl
unfold ReduceExecM.refineFromM
cases ho : ex.order with
| none =>
  cases hfo : f.orderBy with
  | some ob =>
    cases hT : jsTruthyLimit ex.limit <;> cases hfl : jsTruthyLimit f.limit <;>
      simp_all
  | none =>
    cases hfb : f.byClause <;>
      cases hT : jsTruthyLimit ex.limit <;> cases hfl : jsTruthyLimit f.limit <;>
        simp_all
| some os =>
  cases os with
  | topO t =>
    cases hgb : t.getBy with
    | mk b lgb =>
      cases b <;>
        cases hT : jsTruthyLimit ex.limit <;> cases hfl : jsTruthyLimit f.limit <;>
          cases hfo : f.orderBy <;> simp_all
  | orderingO obs =>
    cases hT : jsTruthyLimit ex.limit <;> cases hfl : jsTruthyLimit f.limit <;>
      cases hfo : f.orderBy <;> simp_all

/-- Claim C8: finalizing a reduce executor against an existing reduce
segment concatenates the filter lists as existing-then-new, inherits the
existing `orderBy` (or `by`) when this executor received no ordering,
and inherits the existing (truthy) limit when this executor received no
(truthy) limit. -/
theorem C8_reduce_finalize_refine (ex : ReduceExecM) (f : QuerySegmentM)
    (entries : List (String × Option QueryFieldDefM)) (extendNames : List String)
    (seg : QuerySegmentM) (lgs : List String)
    (hty : f.type = "reduce")
    (h : ex.finalizeM (some f) entries extendNames = .ok (seg, lgs)) :
    seg.filterList = some ((f.filterList.getD []) ++ ex.filters)
  ∧ (ex.order = none → f.orderBy.isSome → seg.orderBy = f.orderBy)
  ∧ (ex.order = none → f.orderBy = none → f.byClause.isSome → seg.byClause = f.byClause)
  ∧ (jsTruthyLimit ex.limit = false → jsTruthyLimit f.limit = true → seg.limit = f.limit) := by
rw [ReduceExecM.finalizeM] at h
have htyb : (f.type == "reduce") = true := by rw [hty]; rfl
rw [htyb] at h
simp only [if_true] at h
cases hG : getPipeSegmentRP "reduce" reduceCanContain (some f) entries extendNames with
| error m => rw [hG] at h; simp [Bind.bind, Except.bind] at h
| ok pr =>
  rw [hG] at h
  simp only [Bind.bind, Except.bind] at h
  obtain ⟨hs1, hs2, hs3, hs4, hs5, _⟩ :=
    getPipeSegmentRP_shape "reduce" reduceCanContain (some f) entries extendNames
      pr.1 pr.2 (by rw [hG])
  obtain ⟨hp, _⟩ := refineFromM_props ex f pr.1 hs1 hs2 hs3 hty
  obtain ⟨hq, hr, hsx⟩ := (refineFromM_props ex f pr.1 hs1 hs2 hs3 hty).2
  have hseg : (ex.refineFromM (some f) pr.1).1 = seg := by
    have := congrArg (fun z => z.1) (Except.ok.injEq .. ▸ h)
    simpa using this
  rw [hseg] at hp hq hr hsx
  exact ⟨hp, hq, hr, hsx⟩

end MalloySpec

namespace MalloySpec

/-- Witness for C8: one new filter, no new ordering or limit, refining a
reduce segment that has an `orderBy`, a limit of 10 and one filter. -/
theorem C8_reduce_finalize_refine_witness :
    (⟨"reduce", [.refQ "old", .refQ "g"], some [⟨"state", none⟩], none, some 10,
        some [⟨"of", .scalar, .str "of"⟩, ⟨"nf", .scalar, .str "nf"⟩],
        none⟩ : QuerySegmentM).filterList
      = some (((⟨"reduce", [.refQ "old"], some [⟨"state", none⟩], none, some 10,
          some [⟨"of", .scalar, .str "of"⟩], none⟩ : QuerySegmentM).filterList.getD [])
            ++ (⟨[⟨"nf", .scalar, .str "nf"⟩], none, none⟩ : ReduceExecM).filters)
  ∧ ((⟨[⟨"nf", .scalar, .str "nf"⟩], none, none⟩ : ReduceExecM).order = none →
      (Option.isSome (some [(⟨"state", none⟩ : OrderByM)]) →
        (⟨"reduce", [.refQ "old", .refQ "g"], some [⟨"state", none⟩], none, some 10,
           some [⟨"of", .scalar, .str "of"⟩, ⟨"nf", .scalar, .str "nf"⟩],
           none⟩ : QuerySegmentM).orderBy
          = (⟨"reduce", [.refQ "old"], some [⟨"state", none⟩], none, some 10,
              some [⟨"of", .scalar, .str "of"⟩], none⟩ : QuerySegmentM).orderBy))
  ∧ ((⟨[⟨"nf", .scalar, .str "nf"⟩], none, none⟩ : ReduceExecM).order = none →
      (⟨"reduce", [.refQ "old"], some [⟨"state", none⟩], none, some 10,
         some [⟨"of", .scalar, .str "of"⟩], none⟩ : QuerySegmentM).orderBy = none →
      Option.isSome (none : Option ByM) →
        (⟨"reduce", [.refQ "old", .refQ "g"], some [⟨"state", none⟩], none, some 10,
           some [⟨"of", .scalar, .str "of"⟩, ⟨"nf", .scalar, .str "nf"⟩],
           none⟩ : QuerySegmentM).byClause
          = (⟨"reduce", [.refQ "old"], some [⟨"state", none⟩], none, some 10,
              some [⟨"of", .scalar, .str "of"⟩], none⟩ : QuerySegmentM).byClause)
  ∧ (jsTruthyLimit (⟨[⟨"nf", .scalar, .str "nf"⟩], none, none⟩ : ReduceExecM).limit = false →
      jsTruthyLimit (⟨"reduce", [.refQ "old"], some [⟨"state", none⟩], none, some 10,
          some [⟨"of", .scalar, .str "of"⟩], none⟩ : QuerySegmentM).limit = true →
        (⟨"reduce", [.refQ "old", .refQ "g"], some [⟨"state", none⟩], none, some 10,
           some [⟨"of", .scalar, .str "of"⟩, ⟨"nf", .scalar, .str "nf"⟩],
           none⟩ : QuerySegmentM).limit
          = (⟨"reduce", [.refQ "old"], some [⟨"state", none⟩], none, some 10,
              some [⟨"of", .scalar, .str "of"⟩], none⟩ : QuerySegmentM).limit) :=
C8_reduce_finalize_refine
  ⟨[⟨"nf", .scalar, .str "nf"⟩], none, none⟩
  ⟨"reduce", [.refQ "old"], some [⟨"state", none⟩], none, some 10,
    some [⟨"of", .scalar, .str "of"⟩], none⟩
  [("g", some (.refQ "g"))] []
  ⟨"reduce", [.refQ "old", .refQ "g"], some [⟨"state", none⟩], none, some 10,
    some [⟨"of", .scalar, .str "of"⟩, ⟨"nf", .scalar, .str "nf"⟩], none⟩
  [] rfl rfl

end MalloySpec

namespace MalloySpec

/-! ## C4 -/

/-- Everything the project result space lets through `canContain` is
neither a turtle nor an aggregate, and every aggregate entry is logged
and left out. -/
theorem projectQFD_clean (entries : List (String × Option QueryFieldDefM))
    (fs : List QueryFieldDefM) (lgs : List String)
    (h : queryFieldDefsM projectCanContain "project" entries = .ok (fs, lgs)) :
    (∀ qd ∈ fs, isTurtleQ qd = false ∧ isAggregateQ qd = false)
  ∧ (∀ n qd, (n, some qd) ∈ entries → isAggregateQ qd = true →
      "Cannot add aggregate measures to project" ∈ lgs ∧ qd ∉ fs) := by
induction entries generalizing fs lgs with
| nil =>
  rw [queryFieldDefsM] at h
  obtain ⟨h1, h2⟩ := Prod.mk.injEq .. ▸ (Except.ok.injEq .. ▸ h)
  constructor
  · intro qd hqd
    rw [← h1] at hqd
    cases hqd
  · intro n qd hmem
    cases hmem
| cons e rest ih =>
  obtain ⟨n0, oqd0⟩ := e
  cases oqd0 with
  | none => rw [queryFieldDefsM] at h; simp [Bind.bind, Except.bind] at h
  | some qd0 =>
    rw [queryFieldDefsM] at h
    cases hR : queryFieldDefsM projectCanContain "project" rest with
    | error m => rw [hR] at h; simp [Bind.bind, Except.bind] at h
    | ok pr =>
      rw [hR] at h
      obtain ⟨ih1, ih2⟩ := ih pr.1 pr.2 (by rw [hR])
      cases hcc : projectCanContain qd0 with
      | mk keep lg =>
        rw [hcc] at h
        simp only [Bind.bind, Except.bind] at h
        cases keep with
        | true =>
          have hclean0 : isTurtleQ qd0 = false ∧ isAggregateQ qd0 = false := by
            cases qd0 with
            | refQ x => exact ⟨rfl, rfl⟩
            | fanQ x => exact ⟨rfl, rfl⟩
            | turtleQ x => simp [projectCanContain] at hcc
            | defQ x t et =>
              refine ⟨rfl, ?_⟩
              by_cases hag : expressionIsAggregateOpt et = true
              · simp [projectCanContain, hag] at hcc
              · simpa [isAggregateQ] using hag
          simp only [if_true, ite_true] at h
          obtain ⟨h1, h2⟩ := Prod.mk.injEq .. ▸ (Except.ok.injEq .. ▸ h)
          constructor
          · intro qd hqd
            rw [← h1] at hqd
            rcases List.mem_cons.1 hqd with hh | hh
            · rw [hh]; exact hclean0
            · exact ih1 qd hh
          · intro n qd hmem hagg
            rcases List.mem_cons.1 hmem with hh | hh
            · exfalso
              obtain ⟨_, he2⟩ := Prod.mk.injEq .. ▸ hh
              rw [Option.some.injEq] at he2
              rw [← he2] at hclean0
              rw [hclean0.2] at hagg
              exact Bool.false_ne_true hagg
            · obtain ⟨hin, hnot⟩ := ih2 n qd hh hagg
              refine ⟨by rw [← h2]; exact List.mem_append_right _ hin, ?_⟩
              rw [← h1]
              intro hcon
              rcases List.mem_cons.1 hcon with hk | hk
              · rw [hk] at hagg
                rw [hclean0.2] at hagg
                exact Bool.false_ne_true hagg
              · exact hnot hk
        | false =>
          simp only [if_false, ite_false, Bool.false_eq_true] at h
          obtain ⟨h1, h2⟩ := Prod.mk.injEq .. ▸ (Except.ok.injEq .. ▸ h)
          constructor
          · intro qd hqd
            rw [← h1] at hqd
            exact ih1 qd hqd
          · intro n qd hmem hagg
            rcases List.mem_cons.1 hmem with hh | hh
            · obtain ⟨_, he2⟩ := Prod.mk.injEq .. ▸ hh
              rw [Option.some.injEq] at he2
              have hmsg : lg = ["Cannot add aggregate measures to project"] := by
                rw [← he2] at hcc
                cases qd with
                | defQ x t et =>
                  rw [isAggregateQ] at hagg
                  simp [projectCanContain, hagg] at hcc
                  exact hcc.symm
                | refQ x => simp [isAggregateQ] at hagg
                | fanQ x => simp [isAggregateQ] at hagg
                | turtleQ x => simp [isAggregateQ] at hagg
              refine ⟨?_, ?_⟩
              · rw [← h2, hmsg]
                simp
              · rw [← h1]
                intro hcon
                obtain ⟨hcl, _⟩ := ih1 qd hcon
                obtain ⟨_, hcl2⟩ := ih1 qd hcon
                rw [hcl2] at hagg
                exact Bool.false_ne_true hagg
            · obtain ⟨hin, hnot⟩ := ih2 n qd hh hagg
              refine ⟨?_, ?_⟩
              · rw [← h2]
                simp [hin]
              · rw [← h1]
                exact hnot

/-- Membership in a merged field list comes from one of the sides. -/
theorem mergeFields_mem (older : Option (List QueryFieldDefM))
    (newer : List QueryFieldDefM) (x : QueryFieldDefM)
    (h : x ∈ mergeFields older newer) :
    (∃ o, older = some o ∧ x ∈ o) ∨ x ∈ newer := by
cases older with
| none => exact Or.inr h
| some o =>
  rw [mergeFields] at h
  rcases List.mem_append.1 h with hh | hh
  · exact Or.inl ⟨o, rfl, List.mem_filter.1 hh |>.1⟩
  · exact Or.inr hh

/-- Claim C4: a finalized project segment contains no aggregate-kinded
expressions and no turtles (given that the refined-from segment, itself
a project finalization, was clean), and an aggregate entry draws the
"Cannot add aggregate measures to project" diagnostic and is excluded
from the fields. -/
theorem C4_project_excludes_aggregates (rf : Option QuerySegmentM)
    (entries : List (String × Option QueryFieldDefM)) (extendNames : List String)
    (seg : QuerySegmentM) (lgs : List String)
    (hclean : ∀ qd ∈ (rf.map (·.fields)).getD [],
      isTurtleQ qd = false ∧ isAggregateQ qd = false)
    (h : getPipeSegmentRP "project" projectCanContain rf entries extendNames
      = .ok (seg, lgs)) :
    (∀ qd ∈ seg.fields, isTurtleQ qd = false ∧ isAggregateQ qd = false)
  ∧ (∀ n qd, (n, some qd) ∈ entries → isAggregateQ qd = true →
      "Cannot add aggregate measures to project" ∈ lgs ∧ qd ∉ seg.fields) := by
obtain ⟨_, _, _, _, _, flds, hQ, hF⟩ :=
  getPipeSegmentRP_shape "project" projectCanContain rf entries extendNames seg lgs h
obtain ⟨p1, p2⟩ := projectQFD_clean entries flds lgs hQ
have hall : ∀ qd ∈ seg.fields, isTurtleQ qd = false ∧ isAggregateQ qd = false := by
  intro qd hqd
  rw [hF] at hqd
  rcases mergeFields_mem _ _ _ hqd with ⟨o, ho, hin⟩ | hin
  · apply hclean
    rw [ho]
    exact hin
  · exact p1 qd hin
refine ⟨hall, ?_⟩
intro n qd hmem hagg
obtain ⟨hlog, _⟩ := p2 n qd hmem hagg
refine ⟨hlog, ?_⟩
intro hcon
obtain ⟨_, hcl⟩ := hall qd hcon
rw [hcl] at hagg
exact Bool.false_ne_true hagg

end MalloySpec

namespace MalloySpec

/-- Witness for C4: a turtle, an aggregate measure and a scalar
dimension offered to a project result space. -/
theorem C4_project_excludes_aggregates_witness :
    (∀ qd ∈ (⟨"project", [.defQ "d" .string (some .scalar)], none, none, none, none,
        none⟩ : QuerySegmentM).fields,
      isTurtleQ qd = false ∧ isAggregateQ qd = false)
  ∧ (∀ (n : String) (qd : QueryFieldDefM),
      (n, some qd) ∈ ([("t", some (.turtleQ "t")),
          ("agg", some (.defQ "agg" .number (some .aggregate))),
          ("d", some (.defQ "d" .string (some .scalar)))]
        : List (String × Option QueryFieldDefM)) →
      isAggregateQ qd = true →
      "Cannot add aggregate measures to project"
          ∈ ["Cannot nest queries in project",
             sq ++ "t" ++ sq ++ " not legal in " ++ "project",
             "Cannot add aggregate measures to project",
             sq ++ "agg" ++ sq ++ " not legal in " ++ "project"]
        ∧ qd ∉ (⟨"project", [.defQ "d" .string (some .scalar)], none, none, none, none,
            none⟩ : QuerySegmentM).fields) :=
C4_project_excludes_aggregates none
  [("t", some (.turtleQ "t")),
   ("agg", some (.defQ "agg" .number (some .aggregate))),
   ("d", some (.defQ "d" .string (some .scalar)))]
  []
  ⟨"project", [.defQ "d" .string (some .scalar)], none, none, none, none, none⟩
  ["Cannot nest queries in project",
   sq ++ "t" ++ sq ++ " not legal in " ++ "project",
   "Cannot add aggregate measures to project",
   sq ++ "agg" ++ sq ++ " not legal in " ++ "project"]
  (by simp)
  rfl

end MalloySpec

namespace MalloySpec

/-! ## C1 -/

/-- Evaluating two already-elaborated operands yields the pair with no
diagnostics. -/
theorem evalPairE_leaf (n : Nat) (lk : Lk) (a b : ExprValue) :
    evalPairE (n + 2) lk (.leafV a) (.leafV b) = ⟨.ok (a, b), [], false⟩ := by
rw [evalPairE]
simp [evalE]

/-- The error cascade on an operand pair with an error-typed member. -/
theorem errorCascade_pair (dt : DataType) (a b : ExprValue)
    (h : a.dataType = .error ∨ b.dataType = .error) :
    errorCascade dt [a, b]
      = some ⟨dt, maxExpressionType a.expressionType b.expressionType,
          mergeEvalSpaces a.evalSpace b.evalSpace, cascadeFrag, none, none, none⟩ := by
have hany : ([a, b].any fun e => e.dataType == DataType.error) = true := by
  rcases h with h | h <;> simp [h]
rw [errorCascade, hany]
simp only [if_true, List.map_cons, List.map_nil, maxOfExpressionTypes_pair,
  mergeEvalSpacesList_pair]
rfl

/-- `unsupportError` stays silent when neither operand is
unsupported. -/
theorem unsupportError_none (a b : ExprValue)
    (ha : a.dataType ≠ .unsupported) (hb : b.dataType ≠ .unsupported) :
    unsupportError a b = (none, []) := by
rw [unsupportError]
simp [ha, hb]

/-- A comparison operator is not an equality operator. -/
theorem comparison_not_equality (op : String) (h : isComparison op = true) :
    isEquality op = false := by
simp only [isComparison, Bool.or_eq_true, beq_iff_eq] at h
rcases h with ((h | h) | h) | h <;> subst h <;> rfl

/-- The dispatcher on an operand pair with an error-typed member (and no
unsupported member): it returns the cascade value for the operator
class, passing the operand-evaluation diagnostics through unchanged. -/
theorem applyBinaryE_cascade (fuel : Nat) (lk : Lk) (l r : ENode) (a b : ExprValue)
    (op : String) (L : List String) (c : Bool)
    (hpair : evalPairE (fuel + 3) lk l r = ⟨.ok (a, b), L, c⟩)
    (hpair2 : evalPairE (fuel + 2) lk l r = ⟨.ok (a, b), L, c⟩)
    (herr : a.dataType = .error ∨ b.dataType = .error)
    (hau : a.dataType ≠ .unsupported) (hbu : b.dataType ≠ .unsupported)
    (hop : isEquality op = true ∨ isComparison op = true
      ∨ op = "+" ∨ op = "-" ∨ op = "*" ∨ op = "%" ∨ op = "/") :
    applyBinaryE (fuel + 4) lk op l r
      = ⟨.ok ⟨classResultType op a,
          maxExpressionType a.expressionType b.expressionType,
          mergeEvalSpaces a.evalSpace b.evalSpace, cascadeFrag, none, none, none⟩,
         L, c⟩ := by
rcases hop with hE | hC | h | h | h | h | h
· rw [applyBinaryE, hE]
  simp only [if_true, hpair, liftBody]
  rw [equalityBody, errorCascade_pair .boolean a b herr]
  simp [classResultType, hE]
· rw [applyBinaryE, comparison_not_equality op hC, hC]
  simp only [Bool.false_eq_true, if_false, if_true, hpair, liftBody]
  rw [compareBody, errorCascade_pair .boolean a b herr]
  simp [classResultType, comparison_not_equality op hC, hC]
· subst h
  rw [applyBinaryE]
  simp only [show isEquality "+" = false from rfl, show isComparison "+" = false from rfl,
    Bool.false_eq_true, if_false, show (("+" == "+") || ("+" == "-")) = true from rfl,
    if_true]
  rw [deltaE]
  simp only [hpair2]
  rw [unsupportError_none a b hau hbu]
  simp only []
  rw [errorCascade_pair _ a b herr]
  simp [classResultType, show isEquality "+" = false from rfl,
    show isComparison "+" = false from rfl]
· subst h
  rw [applyBinaryE]
  simp only [show isEquality "-" = false from rfl, show isComparison "-" = false from rfl,
    Bool.false_eq_true, if_false, show (("-" == "+") || ("-" == "-")) = true from rfl,
    if_true]
  rw [deltaE]
  simp only [hpair2]
  rw [unsupportError_none a b hau hbu]
  simp only []
  rw [errorCascade_pair _ a b herr]
  simp [classResultType, show isEquality "-" = false from rfl,
    show isComparison "-" = false from rfl]
· subst h
  rw [applyBinaryE]
  simp only [show isEquality "*" = false from rfl, show isComparison "*" = false from rfl,
    Bool.false_eq_true, if_false, show (("*" == "+") || ("*" == "-")) = false from rfl,
    show (("*" == "*") || ("*" == "%")) = true from rfl, if_true, hpair, liftBody]
  rw [numericBody, errorCascade_pair .number a b herr]
  simp [classResultType, show isEquality "*" = false from rfl,
    show isComparison "*" = false from rfl,
    show (("*" == "+") || ("*" == "-")) = false from rfl]
· subst h
  rw [applyBinaryE]
  simp only [show isEquality "%" = false from rfl, show isComparison "%" = false from rfl,
    Bool.false_eq_true, if_false, show (("%" == "+") || ("%" == "-")) = false from rfl,
    show (("%" == "*") || ("%" == "%")) = true from rfl, if_true, hpair, liftBody]
  rw [numericBody, errorCascade_pair .number a b herr]
  simp [classResultType, show isEquality "%" = false from rfl,
    show isComparison "%" = false from rfl,
    show (("%" == "+") || ("%" == "-")) = false from rfl]
· subst h
  rw [applyBinaryE]
  simp only [show isEquality "/" = false from rfl, show isComparison "/" = false from rfl,
    Bool.false_eq_true, if_false, show (("/" == "+") || ("/" == "-")) = false from rfl,
    show (("/" == "*") || ("/" == "%")) = false from rfl,
    show ("/" == "/") = true from rfl, if_true, hpair, liftBody]
  rw [divisionBody, unsupportError_none a b hau hbu]
  simp only []
  rw [errorCascade_pair .number a b herr]
  simp [classResultType, show isEquality "/" = false from rfl,
    show isComparison "/" = false from rfl,
    show (("/" == "+") || ("/" == "-")) = false from rfl]

/-- Claim C1 (amended): when an operand of a dispatched binary
application is error-typed (and neither operand is of unsupported type,
which the additive and division paths would diagnose first), the
dispatcher returns the cascade value — whose data type is the operator
class's result type, not `error` in general — with the max of the
operands' expression kinds, and logs nothing. -/
theorem C1_error_cascade_amended (fuel : Nat) (lk : Lk) (a b : ExprValue) (op : String)
    (herr : a.dataType = .error ∨ b.dataType = .error)
    (hau : a.dataType ≠ .unsupported) (hbu : b.dataType ≠ .unsupported)
    (hop : isEquality op = true ∨ isComparison op = true
      ∨ op = "+" ∨ op = "-" ∨ op = "*" ∨ op = "%" ∨ op = "/") :
    applyBinaryE (fuel + 4) lk op (.leafV a) (.leafV b)
      = ⟨.ok ⟨classResultType op a,
          maxExpressionType a.expressionType b.expressionType,
          mergeEvalSpaces a.evalSpace b.evalSpace, cascadeFrag, none, none, none⟩,
         [], false⟩ :=
applyBinaryE_cascade fuel lk (.leafV a) (.leafV b) a b op [] false
  (evalPairE_leaf (fuel + 1) lk a b) (evalPairE_leaf fuel lk a b) herr hau hbu hop

/-- Witness for the amended C1 at error `=` number. -/
theorem C1_error_cascade_amended_witness :
    applyBinaryE 4 lkEmpty "=" (.leafV errOperand) (.leafV numOperand)
      = ⟨.ok ⟨classResultType "=" errOperand,
          maxExpressionType errOperand.expressionType numOperand.expressionType,
          mergeEvalSpaces errOperand.evalSpace numOperand.evalSpace,
          cascadeFrag, none, none, none⟩, [], false⟩ :=
C1_error_cascade_amended 0 lkEmpty errOperand numOperand "="
  (Or.inl rfl) (by decide) (by decide) (Or.inl rfl)

/-- Counterexample to C1 as stated: the cascade result of `=` on an
error operand is boolean-typed, not error-typed, and `+` with an
unsupported second operand does log a diagnostic even though the first
operand is error-typed. -/
theorem C1_error_cascade_counterexample :
    applyBinaryE 9 lkEmpty "=" (.leafV errOperand) (.leafV numOperand)
      = ⟨.ok ⟨.boolean, .scalar, .input, .str (sq ++ "cascading error" ++ sq),
          none, none, none⟩, [], false⟩
  ∧ DataType.boolean ≠ DataType.error
  ∧ applyBinaryE 9 lkEmpty "+" (.leafV errOperand) (.leafV unsupOperand)
      = ⟨.ok ⟨.error, .scalar, .input, .str (sq ++ "unsupported operation" ++ sq),
          none, none, none⟩, ["Unsupported type not allowed in expression"], false⟩ := by
refine ⟨rfl, by decide, rfl⟩

end MalloySpec

namespace MalloySpec

/-! ## C9 -/

/-- Evaluating a reference to the name being defined, inside the
`DefSpace`, logs the circular-reference diagnostic once, yields an
error-typed value, and trips `foundCircle`. -/
theorem evalE_idRef_circ (n : Nat) (base : String → Option ExprValue) (x : String) :
    evalE (n + 1) (defSpaceLk x base) (.idRef x)
      = ⟨.ok (errorFor (circularMsg x)), [circularMsg x], true⟩ := by
rw [evalE]
simp [defSpaceLk, circularMsg]

/-- Operand-pair evaluation for self-reference on the left. -/
theorem evalPairE_idRef_leaf (n : Nat) (base : String → Option ExprValue)
    (x : String) (v : ExprValue) :
    evalPairE (n + 2) (defSpaceLk x base) (.idRef x) (.leafV v)
      = ⟨.ok (errorFor (circularMsg x), v), [circularMsg x], true⟩ := by
rw [evalPairE, evalE_idRef_circ n base x]
simp [evalE]

/-- Operand-pair evaluation for self-reference on the right. -/
theorem evalPairE_leaf_idRef (n : Nat) (base : String → Option ExprValue)
    (x : String) (v : ExprValue) :
    evalPairE (n + 2) (defSpaceLk x base) (.leafV v) (.idRef x)
      = ⟨.ok (v, errorFor (circularMsg x)), [circularMsg x], true⟩ := by
rw [evalPairE, evalE_idRef_circ n base x]
simp [evalE]

/-- When evaluating a declaration's expression inside its `DefSpace`
succeeds with exactly the circular diagnostic and `foundCircle` set, the
declaration adds no diagnostic of its own — whatever the value's type
(an atomic value is accepted; a non-atomic one has its "unknown type" /
"unexpected type" follow-on suppressed by `foundCircle`). -/
theorem fieldDefE_log_circ (n : Nat) (base : String → Option ExprValue) (x : String)
    (e : ENode) (w : ExprValue)
    (h : evalE n (defSpaceLk x base) e = ⟨.ok w, [circularMsg x], true⟩) :
    (fieldDefE n base x x e).2.1 = [circularMsg x]
  ∧ (fieldDefE n base x x e).2.2 = true := by
rw [fieldDefE, queryFieldDefE, h]
by_cases hA : isAtomicFieldType w.dataType = true
· simp [hA]
· simp [hA]

/-- Claim C9: a field declaration whose expression references the field
being defined draws exactly one diagnostic — the circular-reference
error produced by the `DefSpace` lookup — with `foundCircle` recorded,
and no follow-on "unknown type"/"unexpected type" diagnostic: for the
bare self-reference, and for a self-reference combined with any
number-typed operand under any arithmetic or equality operator. -/
theorem C9_circular_definition (fuel : Nat) (base : String → Option ExprValue)
    (x : String) (v : ExprValue) (op : String) (rest : List String)
    (rl : List String → Except String Unit)
    (hop : op = "=" ∨ op = "+" ∨ op = "-" ∨ op = "*" ∨ op = "%" ∨ op = "/")
    (hv : v.dataType = .number) :
    DefSpaceM.lookupM ⟨x, false⟩ rl (x :: rest)
      = (.error (circularMsg x), ⟨x, true⟩)
  ∧ fieldDefE (fuel + 6) base x x (.idRef x)
      = (⟨"error_defining_" ++ x, .string, none, none⟩, [circularMsg x], true)
  ∧ (fieldDefE (fuel + 6) base x x (.binop op (.idRef x) (.leafV v))).2.1
      = [circularMsg x]
  ∧ (fieldDefE (fuel + 6) base x x (.binop op (.idRef x) (.leafV v))).2.2 = true
  ∧ (fieldDefE (fuel + 6) base x x (.binop op (.leafV v) (.idRef x))).2.1
      = [circularMsg x]
  ∧ (fieldDefE (fuel + 6) base x x (.binop op (.leafV v) (.idRef x))).2.2 = true := by
have herrl : (errorFor (circularMsg x)).dataType = .error := rfl
have herru : (errorFor (circularMsg x)).dataType ≠ .unsupported := by
  rw [herrl]
  decide
have hvu : v.dataType ≠ .unsupported := by
  rw [hv]
  decide
have hopc : isEquality op = true ∨ isComparison op = true
    ∨ op = "+" ∨ op = "-" ∨ op = "*" ∨ op = "%" ∨ op = "/" := by
  rcases hop with h | h | h | h | h | h <;> subst h
  · exact Or.inl (by decide)
  all_goals tauto
refine ⟨?_, ?_, ?_⟩
· rw [DefSpaceM.lookupM]
  simp [circularMsg]
· rw [fieldDefE, queryFieldDefE, evalE_idRef_circ (fuel + 5) base x]
  simp [errorFor, isAtomicFieldType]
· have hb := applyBinaryE_cascade fuel (defSpaceLk x base)
    (.idRef x) (.leafV v) (errorFor (circularMsg x)) v op [circularMsg x] true
    (evalPairE_idRef_leaf (fuel + 1) base x v)
    (evalPairE_idRef_leaf fuel base x v)
    (Or.inl herrl) herru hvu hopc
  have hb2 := applyBinaryE_cascade fuel (defSpaceLk x base)
    (.leafV v) (.idRef x) v (errorFor (circularMsg x)) op [circularMsg x] true
    (evalPairE_leaf_idRef (fuel + 1) base x v)
    (evalPairE_leaf_idRef fuel base x v)
    (Or.inr herrl) hvu herru hopc
  have hev1 : evalE (fuel + 6) (defSpaceLk x base) (.binop op (.idRef x) (.leafV v))
      = ⟨.ok ⟨classResultType op (errorFor (circularMsg x)),
          maxExpressionType (errorFor (circularMsg x)).expressionType v.expressionType,
          mergeEvalSpaces (errorFor (circularMsg x)).evalSpace v.evalSpace,
          cascadeFrag, none, none, none⟩, [circularMsg x], true⟩ := by
    rw [evalE]
    simp only [applyNodeE]
    exact hb
  have hev2 : evalE (fuel + 6) (defSpaceLk x base) (.binop op (.leafV v) (.idRef x))
      = ⟨.ok ⟨classResultType op v,
          maxExpressionType v.expressionType (errorFor (circularMsg x)).expressionType,
          mergeEvalSpaces v.evalSpace (errorFor (circularMsg x)).evalSpace,
          cascadeFrag, none, none, none⟩, [circularMsg x], true⟩ := by
    rw [evalE]
    simp only [applyNodeE]
    exact hb2
  obtain ⟨ha1, ha2⟩ := fieldDefE_log_circ (fuel + 6) base x _ _ hev1
  obtain ⟨hc1, hc2⟩ := fieldDefE_log_circ (fuel + 6) base x _ _ hev2
  exact ⟨ha1, ha2, hc1, hc2⟩

/-- Witness for C9: `x is x + 1`. -/
theorem C9_circular_definition_witness :
    DefSpaceM.lookupM ⟨"x", false⟩ (fun _ => (Except.error "no" : Except String Unit)) ["x"]
      = (.error (circularMsg "x"), ⟨"x", true⟩)
  ∧ fieldDefE 6 (fun _ => none) "x" "x" (.idRef "x")
      = (⟨"error_defining_" ++ "x", .string, none, none⟩, [circularMsg "x"], true)
  ∧ (fieldDefE 6 (fun _ => none) "x" "x"
      (.binop "+" (.idRef "x")
        (.leafV ⟨.number, .scalar, .constant, .str "1", none, none, none⟩))).2.1
      = [circularMsg "x"]
  ∧ (fieldDefE 6 (fun _ => none) "x" "x"
      (.binop "+" (.idRef "x")
        (.leafV ⟨.number, .scalar, .constant, .str "1", none, none, none⟩))).2.2 = true
  ∧ (fieldDefE 6 (fun _ => none) "x" "x"
      (.binop "+"
        (.leafV ⟨.number, .scalar, .constant, .str "1", none, none, none⟩)
        (.idRef "x"))).2.1
      = [circularMsg "x"]
  ∧ (fieldDefE 6 (fun _ => none) "x" "x"
      (.binop "+"
        (.leafV ⟨.number, .scalar, .constant, .str "1", none, none, none⟩)
        (.idRef "x"))).2.2 = true :=
C9_circular_definition 0 (fun _ => none) "x"
  ⟨.number, .scalar, .constant, .str "1", none, none, none⟩ "+" []
  (fun _ => (Except.error "no" : Except String Unit)) (Or.inr (Or.inl rfl)) rfl

end MalloySpec
